import Mathlib

/-!
Verification of the authoritative game-server simulation core (`src/server.js`).

The JavaScript source is shallowly embedded: JS numbers are modelled as real
numbers (`ℝ`), wall-clock timestamps (`Date.now()`) as integers (`ℤ`),
counters and identifiers as naturals.  The external three.js octree is
modelled as an oracle: a raw query either returns a value (`Query.ok`) or
throws (`Query.fault`).  A thrown exception that the code does not catch is
modelled by the enclosing operation returning `none`.  JS objects keyed by
player id are modelled as lists in insertion order (string keys of JS objects
enumerate in insertion order, which the list order preserves).
-/

set_option maxHeartbeats 1000000

namespace Shattershot

open scoped Classical

/-- Outcome of a raw call into the external spatial structure: the call either
returns a value or throws an internal error. -/
inductive Query (α : Type) where
  | ok (a : α) : Query α
  | fault : Query α
deriving Repr

/-- A 3D vector, as three.js `Vector3`.  Components are real numbers. -/
@[ext] structure Vec3 where
  x : ℝ
  y : ℝ
  z : ℝ

namespace Vec3

/-- three.js `Vector3.add`. -/
def add (a b : Vec3) : Vec3 := ⟨a.x + b.x, a.y + b.y, a.z + b.z⟩

/-- three.js `Vector3.sub` / `subVectors`. -/
def sub (a b : Vec3) : Vec3 := ⟨a.x - b.x, a.y - b.y, a.z - b.z⟩

/-- three.js `Vector3.multiplyScalar`. -/
def scale (s : ℝ) (v : Vec3) : Vec3 := ⟨v.x * s, v.y * s, v.z * s⟩

/-- three.js `Vector3.dot`. -/
def dot (a b : Vec3) : ℝ := a.x * b.x + a.y * b.y + a.z * b.z

/-- three.js `Vector3.cross` / `crossVectors`. -/
def cross (a b : Vec3) : Vec3 :=
  ⟨a.y * b.z - a.z * b.y, a.z * b.x - a.x * b.z, a.x * b.y - a.y * b.x⟩

/-- `vecLengthSq` of server.js (also three.js `lengthSq`): x*x + y*y + z*z. -/
def lengthSq (v : Vec3) : ℝ := v.x * v.x + v.y * v.y + v.z * v.z

/-- three.js `Vector3.length`. -/
noncomputable def length (v : Vec3) : ℝ := Real.sqrt v.lengthSq

/-- three.js `Vector3.normalize`: `divideScalar(length() || 1)` — the zero
vector is left unchanged (division by 1). -/
noncomputable def normalize (v : Vec3) : Vec3 :=
  scale (1 / (if v.length = 0 then 1 else v.length)) v

/-- three.js `Vector3.distanceTo`. -/
noncomputable def distanceTo (a b : Vec3) : ℝ := (a.sub b).length

/-- three.js `Vector3.addScaledVector`. -/
def addScaledVector (a v : Vec3) (s : ℝ) : Vec3 := a.add (v.scale s)

end Vec3

/-- A three.js `Euler` with the fixed rotation order YXZ used by the server
(`new THREE.Euler(0, 0, 0, 'YXZ')`): x is pitch, y is yaw, z is roll. -/
structure Euler where
  x : ℝ
  y : ℝ
  z : ℝ

/-- A three.js `Quaternion`. -/
structure Quat where
  x : ℝ
  y : ℝ
  z : ℝ
  w : ℝ

/-- three.js `Quaternion.setFromEuler` for rotation order YXZ. -/
noncomputable def Quat.setFromEulerYXZ (e : Euler) : Quat :=
  let c1 := Real.cos (e.x / 2)
  let c2 := Real.cos (e.y / 2)
  let c3 := Real.cos (e.z / 2)
  let s1 := Real.sin (e.x / 2)
  let s2 := Real.sin (e.y / 2)
  let s3 := Real.sin (e.z / 2)
  ⟨s1 * c2 * c3 + c1 * s2 * s3,
   c1 * s2 * c3 - s1 * c2 * s3,
   c1 * c2 * s3 - s1 * s2 * c3,
   c1 * c2 * c3 + s1 * s2 * s3⟩

/-- three.js `Vector3.applyQuaternion`. -/
def Vec3.applyQuaternion (v : Vec3) (q : Quat) : Vec3 :=
  let tx := 2 * (q.y * v.z - q.z * v.y)
  let ty := 2 * (q.z * v.x - q.x * v.z)
  let tz := 2 * (q.x * v.y - q.y * v.x)
  ⟨v.x + q.w * tx + q.y * tz - q.z * ty,
   v.y + q.w * ty + q.z * tx - q.x * tz,
   v.z + q.w * tz + q.x * ty - q.y * tx⟩

/-- three.js `Vector3.applyEuler` (rotation order YXZ, the only order the
server uses): apply the quaternion built from the euler angles. -/
noncomputable def Vec3.applyEuler (v : Vec3) (e : Euler) : Vec3 :=
  v.applyQuaternion (Quat.setFromEulerYXZ e)

/-- A three.js `Capsule` (player body): two endpoints and a radius. -/
@[ext] structure Capsule where
  start : Vec3
  stop : Vec3
  radius : ℝ

/-- three.js `Capsule.translate`. -/
def Capsule.translate (c : Capsule) (v : Vec3) : Capsule :=
  ⟨c.start.add v, c.stop.add v, c.radius⟩

/-- A three.js `Sphere` (projectile body). -/
@[ext] structure Sphere where
  center : Vec3
  radius : ℝ

/-- A three.js `Ray`: origin and direction.  Used as the key of the octree
ray-query oracle. -/
structure Ray where
  origin : Vec3
  direction : Vec3

/-- A raw octree ray hit.  JS duck typing allows `point`, `normal` and
`distance` to be missing from the returned object, hence the `Option`s;
`safeRayIntersect` filters a missing `point`, the other fields are checked at
each use site. -/
structure RawHit where
  point : Option Vec3
  normal : Option Vec3
  distance : Option ℝ

/-- A ray hit as returned by `safeRayIntersect`: the `point` is known to be
present. -/
structure Hit where
  point : Vec3
  normal : Option Vec3
  distance : Option ℝ

/-- The result of the octree capsule sweep `worldOctree.capsuleIntersect`
when it reports a collision. -/
structure CollisionResult where
  normal : Vec3
  depth : ℝ

/-! ### Configuration constants (server.js lines 24-41) -/

def TICK_RATE : ℝ := 60
noncomputable def TICK_TIME : ℝ := 1000 / TICK_RATE
def PHYSICS_SUBSTEPS : ℕ := 5
def GRAVITY : ℝ := 30
def PLAYER_SPEED : ℝ := 40
def JUMP_VELOCITY : ℝ := 8
def MAX_SPEED : ℝ := 5
def RESPAWN_TIME : ℤ := 3000

def MEDKIT_MAX : ℕ := 10
def MEDKIT_RESPAWN_INTERVAL : ℤ := 4000
def MEDKIT_HEAL_AMOUNT : ℤ := 40
def MEDKIT_RADIUS : ℝ := 0.35
def MEDKIT_MIN_GROUND_NORMAL : ℝ := 0.7
def MEDKIT_MIN_PLAYER_DISTANCE : ℝ := 2.0
def MEDKIT_SPAWN_BOUNDS : ℝ := 50
def MEDKIT_RAY_HEIGHT : ℝ := 30
def MEDKIT_TRIES : ℕ := 60

/-! ### Collision query facade -/

/-- `safeRayIntersect` (server.js lines 103-112): every ray query goes
through this wrapper.  If the octree is not ready, the raw query throws
(`Query.fault`), the query returns no hit, or the hit object lacks a
`point`, the wrapper returns `none`; otherwise the hit (with its point made
explicit) is returned.  The oracle `octree` stands for
`worldOctree.rayIntersect`. -/
def safeRayIntersect (ready : Bool) (octree : Ray → Query (Option RawHit))
    (ray : Ray) : Option Hit :=
  if ready then
    match octree ray with
    | Query.fault => none
    | Query.ok none => none
    | Query.ok (some h) =>
      match h.point with
      | none => none
      | some pt => some ⟨pt, h.normal, h.distance⟩
  else none

/-! ### Game entities -/

/-- The movement-key snapshot taken from client input (`player.input`).  The
server reads exactly these five keys; unknown keys in the JS map are never
read, so they are not modelled. -/
structure InputKeys where
  keyW : Bool
  keyS : Bool
  keyA : Bool
  keyD : Bool
  space : Bool

/-- The all-keys-released input map (`input: {}`). -/
def InputKeys.none : InputKeys := ⟨false, false, false, false, false⟩

/-- A live player entity (server.js lines 395-411 and 323-339).  Player ids
are modelled as naturals. -/
@[ext] structure Player where
  id : ℕ
  name : ℕ
  collider : Capsule
  velocity : Vec3
  rotation : Euler
  input : InputKeys
  onFloor : Bool
  health : ℤ
  maxHealth : ℤ
  ammo : ℕ
  maxAmmo : ℕ
  isReloading : Bool
  reloadStartTime : ℤ
  reloadTime : ℤ
  kills : ℕ

/-- A projectile (created in `createBullet`, server.js lines 94-100). -/
@[ext] structure Bullet where
  id : ℕ
  ownerId : ℕ
  collider : Sphere
  velocity : Vec3
  spawnTime : ℤ

/-- A healing pickup. -/
@[ext] structure Medkit where
  id : ℕ
  position : Vec3
  pickedUp : Bool

/-- A pending-respawn record (`deadPlayers[playerId]`). -/
structure DeadRec where
  respawnTime : ℤ
  kills : ℕ

/-- The fixed spawn capsule
`new Capsule(new THREE.Vector3(0, 0.35, 0), new THREE.Vector3(0, 0.8, 0), 0.35)`. -/
def spawnCapsule : Capsule := ⟨⟨0, 0.35, 0⟩, ⟨0, 0.8, 0⟩, 0.35⟩

/-- A freshly constructed player entity.  On connection (server.js lines
395-411) `k = 0`; on respawn (lines 323-339) `k` is the kill count restored
from the pending-respawn record.  Both sites build exactly this record, and
both set `name` to the player id. -/
def freshPlayer (pid : ℕ) (k : ℕ) : Player :=
  { id := pid
    name := pid
    collider := spawnCapsule
    velocity := ⟨0, 0, 0⟩
    rotation := ⟨0, 0, 0⟩
    input := InputKeys.none
    onFloor := false
    health := 100
    maxHealth := 100
    ammo := 30
    maxAmmo := 30
    isReloading := false
    reloadStartTime := 0
    reloadTime := 1500
    kills := k }

/-! ### Physics and movement integrator -/

/-- The horizontal speed clamp of `updatePlayer` (server.js lines 260-264):
when the (x,z) part of the velocity exceeds MAX_SPEED in magnitude, rescale
it to magnitude MAX_SPEED; the y component is untouched. -/
noncomputable def clampHorizontal (v : Vec3) : Vec3 :=
  let horizontal := Vec3.mk v.x 0 v.z
  if horizontal.lengthSq > MAX_SPEED * MAX_SPEED then
    let h := horizontal.normalize.scale MAX_SPEED
    Vec3.mk h.x v.y h.z
  else v

/-- The movement stage of `updatePlayer` (server.js lines 247-266): yaw-only
forward vector, key acceleration, jump impulse, gravity, exponential
damping, the horizontal speed clamp, and the capsule translation by
velocity·dt.  Returns the velocity after the clamp and the translated
capsule. -/
noncomputable def integrateMotion (deltaTime : ℝ) (player : Player) :
    Vec3 × Capsule :=
  let forward0 := (Vec3.mk 0 0 (-1)).applyEuler player.rotation
  let forward := (Vec3.mk forward0.x 0 forward0.z).normalize
  let side := forward.cross ⟨0, 1, 0⟩
  let accel := PLAYER_SPEED * deltaTime
  let v0 := player.velocity
  let v1 := if player.input.keyW then v0.add (forward.scale accel) else v0
  let v2 := if player.input.keyS then v1.add (forward.scale (-accel)) else v1
  let v3 := if player.input.keyA then v2.add (side.scale (-accel)) else v2
  let v4 := if player.input.keyD then v3.add (side.scale accel) else v3
  let v5 := if player.onFloor && player.input.space
    then Vec3.mk v4.x JUMP_VELOCITY v4.z else v4
  let v6 := if !player.onFloor
    then Vec3.mk v5.x (v5.y - GRAVITY * deltaTime) v5.z else v5
  let damping := Real.exp (-6 * deltaTime)
  let v7 := Vec3.mk (v6.x * damping) v6.y (v6.z * damping)
  let v8 := clampHorizontal v7
  (v8, player.collider.translate (v8.scale deltaTime))

/-- The collision response and fail-safe stage of `updatePlayer` (server.js
lines 268-278): on a sweep hit, grounded iff the contact normal points up,
sliding response (velocity component along the normal removed) only when not
grounded, and depenetration along the normal; then the below-world reset of
the capsule endpoints and velocity. -/
noncomputable def resolveCollision (result : Option CollisionResult)
    (player : Player) (v8 : Vec3) (collider1 : Capsule) : Player :=
  let afterHit :=
    match result with
    | none => (false, v8, collider1)
    | some r =>
      let onFloor : Bool := decide (r.normal.y > 0)
      let v9 := if onFloor then v8
        else v8.addScaledVector r.normal (-(r.normal.dot v8))
      (onFloor, v9, collider1.translate (r.normal.scale r.depth))
  let onFloor1 := afterHit.1
  let v10 := afterHit.2.1
  let collider2 := afterHit.2.2
  if collider2.start.y < -25 then
    { player with
        collider := ⟨⟨0, 0.35, 0⟩, ⟨0, 0.8, 0⟩, collider2.radius⟩
        velocity := ⟨0, 0, 0⟩
        onFloor := onFloor1 }
  else
    { player with
        collider := collider2
        velocity := v10
        onFloor := onFloor1 }

/-- `updatePlayer` (server.js lines 246-279), one physics substep for one
player.  The capsule sweep `worldOctree.capsuleIntersect(player.collider)`
is issued directly on the raw octree — no readiness guard, no try/catch — so
its outcome is a `Query`; a thrown sweep (`Query.fault`) propagates out of
the substep, modelled by the result `none`. -/
noncomputable def updatePlayer (deltaTime : ℝ)
    (sweep : Query (Option CollisionResult)) (player : Player) :
    Option Player :=
  let m := integrateMotion deltaTime player
  match sweep with
  | Query.fault => none
  | Query.ok result => some (resolveCollision result player m.1 m.2)

/-- The squared magnitude of the horizontal (x,z) part of a velocity. -/
def horizontalSpeedSq (v : Vec3) : ℝ := v.x * v.x + v.z * v.z

/-! ### Combat subsystem -/

/-- `createBullet` (server.js lines 79-101), as the pure bullet value pushed
onto the bullet list; `now` is `Date.now()` and `nextId` the current
`nextBulletId`. -/
noncomputable def createBullet (now : ℤ) (nextId : ℕ) (player : Player) :
    Bullet :=
  let direction := ((Vec3.mk 0 0 (-1)).applyEuler player.rotation).normalize
  let headPos := player.collider.stop
  let camQuat := Quat.setFromEulerYXZ player.rotation
  let right := ((Vec3.mk 1 0 0).applyQuaternion camQuat).normalize
  let up := ((Vec3.mk 0 1 0).applyQuaternion camQuat).normalize
  let MUZZLE_FORWARD : ℝ := 0.18
  let MUZZLE_UP : ℝ := 0.2
  let MUZZLE_RIGHT : ℝ := 0.1
  let startPosition := ((((headPos.add
      (direction.scale MUZZLE_FORWARD)).add
      (up.scale MUZZLE_UP)).add
      (right.scale MUZZLE_RIGHT)).add
      (direction.scale 0.04))
  { id := nextId
    ownerId := player.id
    collider := ⟨startPosition, 0.08⟩
    velocity := direction.scale 80
    spawnTime := now }

/-- The `shoot` message handler (server.js lines 429-437): rejected while
reloading or with no ammo; an accepted shot decrements ammo, spawns a
bullet, and starts a reload the moment ammo reaches 0.  Returns the updated
player, the spawned bullet (if any) and the next `nextBulletId`. -/
noncomputable def handleShoot (now : ℤ) (nextId : ℕ) (p : Player) :
    Player × Option Bullet × ℕ :=
  if ¬p.isReloading ∧ p.ammo > 0 then
    let p1 := { p with ammo := p.ammo - 1 }
    let b := createBullet now nextId p1
    let p2 := if p1.ammo ≤ 0
      then { p1 with isReloading := true, reloadStartTime := now }
      else p1
    (p2, some b, nextId + 1)
  else (p, none, nextId)

/-- The `reload` message handler (server.js lines 438-443). -/
def handleReload (now : ℤ) (p : Player) : Player :=
  if ¬p.isReloading ∧ p.ammo < p.maxAmmo then
    { p with isReloading := true, reloadStartTime := now }
  else p

/-- `updatePlayerState` (server.js lines 239-244): reload completion,
checked once per tick before the physics substeps. -/
def updatePlayerState (now : ℤ) (p : Player) : Player :=
  if p.isReloading ∧ now - p.reloadStartTime ≥ p.reloadTime then
    { p with isReloading := false, ammo := p.maxAmmo }
  else p

/-- `capsuleIntersectsSphere` (server.js lines 64-77): closest point on the
capsule segment to the sphere center, compared against the sum of the
radii. -/
noncomputable def capsuleIntersectsSphere (capsule : Capsule)
    (sphere : Sphere) : Prop :=
  let start := capsule.start
  let stop := capsule.stop
  let center := sphere.center
  let radius := capsule.radius + sphere.radius
  let segDir0 := stop.sub start
  let segLen := segDir0.length
  if segLen = 0 then start.distanceTo center ≤ radius
  else
    let segDir := segDir0.normalize
    let toCenter := center.sub start
    let t := max 0 (min segLen (segDir.dot toCenter))
    let closestPoint := start.add (segDir.scale t)
    closestPoint.distanceTo center ≤ radius

/-- The world-collision removal test of `updateBullets` (server.js line
293): `worldCollision && worldCollision.distance <= segLen` — false when
there is no hit or the hit carries no numeric distance. -/
def bulletHitWorld (worldCollision : Option Hit) (segLen : ℝ) : Prop :=
  match worldCollision with
  | some h =>
    match h.distance with
    | some d => d ≤ segLen
    | none => False
  | none => False

/-- `updateBullets` (server.js lines 281-298): advance each bullet by one
substep, then remove it if the ray along its displacement hits world
geometry within the segment length, its distance from the origin exceeds
300, or its age exceeds 3000 ms.  The backward iteration with a single
`splice` of the current index is a filter. -/
noncomputable def updateBullets (now : ℤ) (deltaTime : ℝ) (ready : Bool)
    (octree : Ray → Query (Option RawHit)) (bullets : List Bullet) :
    List Bullet :=
  bullets.filterMap (fun bullet =>
    let prev := bullet.collider.center
    let center := prev.addScaledVector bullet.velocity deltaTime
    let dir0 := center.sub prev
    let segLen := dir0.length
    let dir := if segLen > 0 then dir0.normalize else dir0
    let worldCollision := safeRayIntersect ready octree ⟨prev, dir⟩
    let moved := { bullet with collider := ⟨center, bullet.collider.radius⟩ }
    if bulletHitWorld worldCollision segLen ∨ center.length > 300 ∨
        now - bullet.spawnTime > 3000
    then none else some moved)

/-- The hit test of `checkCollisions` (server.js line 305): a bullet hits a
player other than its owner whose capsule intersects the bullet sphere. -/
noncomputable def hitsPlayer (b : Bullet) (p : Player) : Prop :=
  b.ownerId ≠ p.id ∧ capsuleIntersectsSphere p.collider b.collider

/-- The first player in iteration order hit by a bullet (the inner
`for ... break` loop of `checkCollisions`). -/
noncomputable def firstHit (b : Bullet) : List Player → Option Player
  | [] => none
  | p :: ps => if hitsPlayer b p then some p else firstHit b ps

/-- Insert-or-replace into the pending-respawn association list, the JS
object assignment `deadPlayers[player.id] = rec`. -/
def setDead (dead : List (ℕ × DeadRec)) (pid : ℕ) (rec : DeadRec) :
    List (ℕ × DeadRec) :=
  if dead.any (fun e => e.1 = pid)
  then dead.map (fun e => if e.1 = pid then (pid, rec) else e)
  else dead ++ [(pid, rec)]

/-- The body of `checkCollisions` once a victim is found (server.js lines
306-313): destroy the bullet, subtract 20 health; if health drops to ≤ 0,
credit the owner (when still live), record the pending respawn at
`now + RESPAWN_TIME` carrying the victim's kill count, and delete the
victim from the live set. -/
def applyHit (now : ℤ) (b : Bullet) (victim : Player) (ps : List Player)
    (dead : List (ℕ × DeadRec)) : List Player × List (ℕ × DeadRec) :=
  let ps1 := ps.map (fun q =>
    if q.id = victim.id then { q with health := q.health - 20 } else q)
  if victim.health - 20 ≤ 0 then
    let ps2 := ps1.map (fun q =>
      if q.id = b.ownerId then { q with kills := q.kills + 1 } else q)
    let ps3 := ps2.filter (fun q => q.id ≠ victim.id)
    let dead2 := setDead dead victim.id
      ⟨now + RESPAWN_TIME, victim.kills⟩
    (ps3, dead2)
  else (ps1, dead)

/-- One step of the backward bullet loop of `checkCollisions` (server.js
lines 300-317).  The accumulator carries the live set, the pending-respawn
set, and the bullets kept so far. -/
noncomputable def checkCollisionsStep (now : ℤ) (b : Bullet)
    (acc : List Player × List (ℕ × DeadRec) × List Bullet) :
    List Player × List (ℕ × DeadRec) × List Bullet :=
  match firstHit b acc.1 with
  | some victim =>
    let res := applyHit now b victim acc.1 acc.2.1
    (res.1, res.2, acc.2.2)
  | none => (acc.1, acc.2.1, b :: acc.2.2)

/-- `checkCollisions` (server.js lines 300-317).  The JS loop walks the
bullet array from the last index down, so it is a right fold; a surviving
bullet is kept in place, preserving array order. -/
noncomputable def checkCollisions (now : ℤ) (ps : List Player)
    (dead : List (ℕ × DeadRec)) (bullets : List Bullet) :
    List Player × List (ℕ × DeadRec) × List Bullet :=
  bullets.foldr (checkCollisionsStep now) (ps, dead, [])

/-! ### Respawn sweep and session handlers -/

/-- JS object assignment `players[playerId] = p`: replace the entry when the
key exists, append otherwise. -/
def upsertPlayer (ps : List Player) (p : Player) : List Player :=
  if ps.any (fun q => q.id = p.id)
  then ps.map (fun q => if q.id = p.id then p else q)
  else ps ++ [p]

/-- `respawnPlayers` (server.js lines 319-343): every pending-respawn record
whose timer has expired is consumed and a fresh player (spawn pose, full
health and ammo, restored kill count, name reset to the id) re-enters the
live set; unexpired records are kept in order. -/
def respawnPlayers (now : ℤ) (ps : List Player)
    (dead : List (ℕ × DeadRec)) : List Player × List (ℕ × DeadRec) :=
  dead.foldl (fun acc entry =>
    if now ≥ entry.2.respawnTime then
      (upsertPlayer acc.1 (freshPlayer entry.1 entry.2.kills), acc.2)
    else (acc.1, acc.2 ++ [entry])) (ps, [])

/-! ### Pickups -/

/-- The claim test and heal of `checkMedkitPickups` for one player and one
medkit (server.js lines 225-234): an unclaimed medkit within distance 1.0 of
the collider start point heals a player strictly below max health, clamped
to max health, and is flagged claimed. -/
noncomputable def pickupStep (p : Player) (m : Medkit) : Player × Medkit :=
  if ¬m.pickedUp ∧ p.collider.start.distanceTo m.position < 1 ∧
      p.health < p.maxHealth then
    ({ p with health := min p.maxHealth (p.health + MEDKIT_HEAL_AMOUNT) },
     { m with pickedUp := true })
  else (p, m)

/-- The inner medkit loop of `checkMedkitPickups` for one player. -/
noncomputable def playerPickups (p : Player) (ms : List Medkit) :
    Player × List Medkit :=
  ms.foldl (fun acc m =>
    let res := pickupStep acc.1 m
    (res.1, acc.2 ++ [res.2])) (p, [])

/-- `checkMedkitPickups` (server.js lines 222-237). -/
noncomputable def checkMedkitPickups (ps : List Player) (ms : List Medkit) :
    List Player × List Medkit :=
  ps.foldl (fun acc p =>
    let res := playerPickups p acc.2
    (acc.1 ++ [res.1], res.2)) ([], ms)

/-- The medkit sweep in `tick` (server.js lines 360-362): claimed medkits
are removed in the same tick. -/
def sweepMedkits (ms : List Medkit) : List Medkit :=
  ms.filter (fun m => !m.pickedUp)

/-! ### Pickup placement engine

`randomGroundPosition` (server.js lines 114-209).  `Math.random()` is
modelled as a stream `rand : ℕ → ℝ` of draws consumed in call order; each
function returns the next unused stream index along with its result, so the
index measures how many random draws (two per candidate attempt) were
consumed.  `Number.isFinite` is identically true in the real-number model
(there is no NaN or Infinity), so the finiteness filters always pass. -/

/-- The vertical-ray ground probe used at a candidate (x,z): the surface
normal's y defaults to 0 when the hit carries no normal (server.js line
135). -/
noncomputable def groundProbe (ready : Bool)
    (octree : Ray → Query (Option RawHit)) (x z : ℝ) : Option Hit :=
  safeRayIntersect ready octree ⟨⟨x, MEDKIT_RAY_HEIGHT, z⟩, ⟨0, -1, 0⟩⟩

/-- The y component of a hit's normal, 0 when absent. -/
def hitNormalY (h : Hit) : ℝ :=
  match h.normal with
  | some n => n.y
  | none => 0

/-- One corroborating offset recast (server.js lines 149-159): the offset
probe must hit, agree in height within `medkitRadius + 0.3`, and be at least
as flat as the threshold. -/
noncomputable def offsetOk (ready : Bool)
    (octree : Ray → Query (Option RawHit)) (hitY sx sz : ℝ) : Prop :=
  match groundProbe ready octree sx sz with
  | none => False
  | some sh =>
    |sh.point.y - hitY| ≤ MEDKIT_RADIUS + 0.3 ∧
    hitNormalY sh ≥ MEDKIT_MIN_GROUND_NORMAL

/-- The five sample offsets of server.js lines 141-147 (x,z pairs). -/
def SAMPLE_OFFSETS : List (ℝ × ℝ) :=
  [(0, 0), (0.4, 0), (-0.4, 0), (0, 0.4), (0, -0.4)]

/-- The player-proximity rejection (server.js lines 161-172): planar
distance below the minimum, or below the tighter 0.7-scaled minimum while in
the vertical band of the player's feet. -/
noncomputable def tooCloseToPlayers (ps : List Player) (pos : Vec3) : Prop :=
  ∃ p ∈ ps,
    let center := (p.collider.start.add p.collider.stop).scale 0.5
    let feetY := p.collider.start.y - p.collider.radius
    let dx := center.x - pos.x
    let dz := center.z - pos.z
    let d2 := dx * dx + dz * dz
    d2 < MEDKIT_MIN_PLAYER_DISTANCE * MEDKIT_MIN_PLAYER_DISTANCE ∨
    (|feetY - pos.y| < 0.6 ∧
      d2 < (MEDKIT_MIN_PLAYER_DISTANCE * 0.7) * (MEDKIT_MIN_PLAYER_DISTANCE * 0.7))

/-- One strict candidate of the primary sampling loop (server.js lines
131-177): ground probe, flatness, sane height, offset corroboration, player
clearance, overhead clearance. -/
noncomputable def rgpCandidate (ready : Bool)
    (octree : Ray → Query (Option RawHit)) (ps : List Player) (x z : ℝ) :
    Option Vec3 :=
  match groundProbe ready octree x z with
  | none => none
  | some hit =>
    if hitNormalY hit < MEDKIT_MIN_GROUND_NORMAL then none
    else
      let pos := Vec3.mk hit.point.x (hit.point.y + MEDKIT_RADIUS + 0.02)
        hit.point.z
      if pos.y < -10 ∨ pos.y > MEDKIT_RAY_HEIGHT then none
      else if ¬(∀ off ∈ SAMPLE_OFFSETS,
          offsetOk ready octree hit.point.y (pos.x + off.1) (pos.z + off.2))
        then none
      else if tooCloseToPlayers ps pos then none
      else
        let upHit := safeRayIntersect ready octree
          ⟨pos.add ⟨0, 0.01, 0⟩, ⟨0, 1, 0⟩⟩
        match upHit with
        | some uh =>
          match uh.distance with
          | some d => if d < MEDKIT_RADIUS * 0.9 then none else some pos
          | none => some pos
        | none => some pos

/-- The primary try loop (server.js lines 128-178), with its remaining try
budget as fuel and the next random-stream index `k`; each try draws x and z
(two stream values). -/
noncomputable def rgpMainLoop (rand : ℕ → ℝ) (ready : Bool)
    (octree : Ray → Query (Option RawHit)) (ps : List Player) :
    ℕ → ℕ → Option Vec3 × ℕ
  | 0, k => (none, k)
  | fuel + 1, k =>
    let x := (rand k - 0.5) * 2 * MEDKIT_SPAWN_BOUNDS
    let z := (rand (k + 1) - 0.5) * 2 * MEDKIT_SPAWN_BOUNDS
    match rgpCandidate ready octree ps x z with
    | some pos => (some pos, k + 2)
    | none => rgpMainLoop rand ready octree ps fuel (k + 2)

/-- The relaxed 20-try fallback (server.js lines 179-189): any ground hit is
accepted. -/
noncomputable def rgpRelaxedLoop (rand : ℕ → ℝ) (ready : Bool)
    (octree : Ray → Query (Option RawHit)) :
    ℕ → ℕ → Option Vec3 × ℕ
  | 0, k => (none, k)
  | fuel + 1, k =>
    let x := (rand k - 0.5) * 2 * MEDKIT_SPAWN_BOUNDS
    let z := (rand (k + 1) - 0.5) * 2 * MEDKIT_SPAWN_BOUNDS
    match groundProbe ready octree x z with
    | none => rgpRelaxedLoop rand ready octree fuel (k + 2)
    | some hit =>
      (some ⟨hit.point.x, hit.point.y + MEDKIT_RADIUS + 0.02, hit.point.z⟩,
       k + 2)

/-- The 12-try ring sampling around a chosen live player (server.js lines
193-204); each try draws an angle and a radius. -/
noncomputable def rgpRingLoop (rand : ℕ → ℝ) (ready : Bool)
    (octree : Ray → Query (Option RawHit)) (p : Player) :
    ℕ → ℕ → Option Vec3 × ℕ
  | 0, k => (none, k)
  | fuel + 1, k =>
    let angle := rand k * Real.pi * 2
    let r := MEDKIT_MIN_PLAYER_DISTANCE + rand (k + 1) * 4.0
    let px := (p.collider.start.x + p.collider.stop.x) / 2 +
      Real.cos angle * r
    let pz := (p.collider.start.z + p.collider.stop.z) / 2 +
      Real.sin angle * r
    match groundProbe ready octree px pz with
    | none => rgpRingLoop rand ready octree p fuel (k + 2)
    | some hit =>
      (some ⟨hit.point.x, hit.point.y + MEDKIT_RADIUS + 0.02, hit.point.z⟩,
       k + 2)

/-- `randomGroundPosition` (server.js lines 114-209), called with the
default options (the only call site, `spawnMedkit`, passes none): the
layered search with its unready short-circuit, the 60-try strict loop, the
20-try relaxed loop, the 12-try player ring, and the unconditioned final
sample.  Returns the position and the next unused random-stream index. -/
noncomputable def randomGroundPosition (rand : ℕ → ℝ) (ready : Bool)
    (octree : Ray → Query (Option RawHit)) (ps : List Player) : Vec3 × ℕ :=
  if ready = false then
    (⟨(rand 0 - 0.5) * 2 * MEDKIT_SPAWN_BOUNDS, MEDKIT_RADIUS + 0.02,
      (rand 1 - 0.5) * 2 * MEDKIT_SPAWN_BOUNDS⟩, 2)
  else
    match rgpMainLoop rand ready octree ps MEDKIT_TRIES 0 with
    | (some pos, k) => (pos, k)
    | (none, k) =>
      match rgpRelaxedLoop rand ready octree 20 k with
      | (some pos, k2) => (pos, k2)
      | (none, k2) =>
        match ps with
        | [] =>
          (⟨(rand k2 - 0.5) * 2 * MEDKIT_SPAWN_BOUNDS,
            MEDKIT_RADIUS + 0.02,
            (rand (k2 + 1) - 0.5) * 2 * MEDKIT_SPAWN_BOUNDS⟩, k2 + 2)
        | q :: qs =>
          let chosen := (q :: qs).getD
            (⌊rand k2 * (q :: qs).length⌋.toNat) q
          match rgpRingLoop rand ready octree chosen 12 (k2 + 1) with
          | (some pos, k3) => (pos, k3)
          | (none, k3) =>
            (⟨(rand k3 - 0.5) * 2 * MEDKIT_SPAWN_BOUNDS,
              MEDKIT_RADIUS + 0.02,
              (rand (k3 + 1) - 0.5) * 2 * MEDKIT_SPAWN_BOUNDS⟩, k3 + 2)

/-- `spawnMedkit` (server.js lines 211-220): below the population cap, place
a medkit at the searched position.  In the real-number model the
`Number.isFinite` guard always passes, so the origin fallback branch of
lines 214-217 is dead.  `mid` stands for the random id string. -/
noncomputable def spawnMedkit (rand : ℕ → ℝ) (ready : Bool)
    (octree : Ray → Query (Option RawHit)) (mid : ℕ) (ps : List Player)
    (ms : List Medkit) : List Medkit :=
  if ms.length ≥ MEDKIT_MAX then ms
  else
    let pos := (randomGroundPosition rand ready octree ps).1
    ms ++ [{ id := mid, position := pos, pickedUp := false }]

/-! ### Tick orchestrator -/

/-- The mutable server collections owned by the tick loop (server.js lines
17-22). -/
structure GameState where
  players : List Player
  bullets : List Bullet
  medkits : List Medkit
  deadPlayers : List (ℕ × DeadRec)
  nextBulletId : ℕ
  lastMedkitSpawn : ℤ

/-- The environment a tick runs against: the octree sweep outcome per
substep and per player, the octree ray oracle per substep, the spawn-search
ray oracle, the readiness flag, the random stream, and the id for a medkit
spawned this tick. -/
structure TickEnv where
  sweep : ℕ → Player → Query (Option CollisionResult)
  octree : ℕ → Ray → Query (Option RawHit)
  spawnOctree : Ray → Query (Option RawHit)
  ready : Bool
  rand : ℕ → ℝ
  medkitId : ℕ

/-- Sequential update of every player, aborting the tick when one player's
capsule sweep throws (the JS exception propagates out of `setInterval`'s
callback). -/
noncomputable def updateAllPlayers (dt : ℝ)
    (sweep : Player → Query (Option CollisionResult)) :
    List Player → Option (List Player)
  | [] => some []
  | p :: ps =>
    match updatePlayer dt (sweep p) p, updateAllPlayers dt sweep ps with
    | some p2, some ps2 => some (p2 :: ps2)
    | _, _ => none

/-- One physics substep of `tick` (server.js lines 349-353): move every
player, advance the bullets, then resolve bullet-player hits. -/
noncomputable def substep (env : TickEnv) (now : ℤ) (dt : ℝ) (i : ℕ)
    (st : GameState) : Option GameState :=
  match updateAllPlayers dt (env.sweep i) st.players with
  | none => none
  | some ps =>
    let bs := updateBullets now dt env.ready (env.octree i) st.bullets
    let res := checkCollisions now ps st.deadPlayers bs
    some { st with players := res.1, deadPlayers := res.2.1,
                   bullets := res.2.2 }

/-- `tick` (server.js lines 345-390), up to the snapshot broadcast (pure
serialization): reload completions, the five physics substeps, the respawn
sweep, timed medkit spawning, pickup claims, and the claimed-medkit sweep.
`none` models a tick aborted by an uncaught exception from the capsule
sweep. -/
noncomputable def tick (env : TickEnv) (now : ℤ) (st : GameState) :
    Option GameState :=
  let dt := TICK_TIME / 1000 / (PHYSICS_SUBSTEPS : ℝ)
  let st0 := { st with players := st.players.map (updatePlayerState now) }
  match (List.range PHYSICS_SUBSTEPS).foldlM
      (fun s i => substep env now dt i s) st0 with
  | none => none
  | some st1 =>
    let res := respawnPlayers now st1.players st1.deadPlayers
    let st2 := { st1 with players := res.1, deadPlayers := res.2 }
    let st3 :=
      if now - st2.lastMedkitSpawn > MEDKIT_RESPAWN_INTERVAL then
        { st2 with
            medkits := spawnMedkit env.rand env.ready env.spawnOctree
              env.medkitId st2.players st2.medkits
            lastMedkitSpawn := now }
      else st2
    let pick := checkMedkitPickups st3.players st3.medkits
    let st4 := { st3 with players := pick.1, medkits := pick.2 }
    some { st4 with medkits := sweepMedkits st4.medkits }

/-- The `connection` handler (server.js lines 393-411): a new session
inserts a fresh player with zero kills. -/
def connectPlayer (pid : ℕ) (st : GameState) : GameState :=
  { st with players := upsertPlayer st.players (freshPlayer pid 0) }

/-- The `close` handler (server.js lines 448-451): disconnection deletes the
live entry only — a pending-respawn record for the same id is left in
place. -/
def disconnect (pid : ℕ) (st : GameState) : GameState :=
  { st with players := st.players.filter (fun p => p.id ≠ pid) }

/-! ## Claims -/

/-- A tick environment whose capsule sweep throws on every query. -/
def faultSweepEnv : TickEnv :=
  { sweep := fun _ _ => Query.fault
    octree := fun _ _ => Query.ok none
    spawnOctree := fun _ => Query.ok none
    ready := true
    rand := fun _ => 0
    medkitId := 0 }

/-- A game state holding a single freshly spawned player and nothing else. -/
def onePlayerState : GameState :=
  { players := [freshPlayer 0 0]
    bullets := []
    medkits := []
    deadPlayers := []
    nextBulletId := 0
    lastMedkitSpawn := 0 }

/-- C1, counterexample: the claim extends fault tolerance to "every capsule
sweep issued by the simulation", but `updatePlayer` calls
`worldOctree.capsuleIntersect` directly (server.js line 267) with no
readiness guard and no try/catch, so a throwing sweep propagates and the
tick aborts: with one live player and a throwing sweep, `tick` produces no
state. -/
theorem capsule_sweep_fault_aborts_tick :
    tick faultSweepEnv 0 onePlayerState = none := by
  rfl

/-- C1, amended: every ray cast goes through `safeRayIntersect`, which
returns "no hit" whenever the octree is not ready, the raw query throws, the
query reports no hit, or the hit object lacks a point; and a physics substep
completes (never aborts) whenever its capsule sweep returns — faults only
enter through a throwing sweep, which `updatePlayer` does not guard. -/
theorem ray_facade_tolerates_faults :
    (∀ (ready : Bool) (octree : Ray → Query (Option RawHit)) (ray : Ray),
      (ready = false ∨ octree ray = Query.fault ∨
        octree ray = Query.ok none ∨
        (∃ h, octree ray = Query.ok (some h) ∧ h.point = none)) →
      safeRayIntersect ready octree ray = none) ∧
    (∀ (dt : ℝ) (res : Option CollisionResult) (p : Player),
      (updatePlayer dt (Query.ok res) p).isSome = true) := by
  constructor
  · intro ready octree ray h
    rcases h with h | h | h | ⟨hh, h1, h2⟩
    · simp [safeRayIntersect, h]
    · simp [safeRayIntersect, h]
    · simp [safeRayIntersect, h]
    · simp [safeRayIntersect, h1, h2]
  · intro dt res p
    rfl

/-- Witness for C1's amended theorem: an unready octree's ray query is
downgraded to "no hit". -/
theorem ray_facade_tolerates_faults_witness :
    safeRayIntersect false (fun _ => Query.ok none)
      ⟨⟨0, 0, 0⟩, ⟨0, -1, 0⟩⟩ = none :=
  ray_facade_tolerates_faults.1 false (fun _ => Query.ok none)
    ⟨⟨0, 0, 0⟩, ⟨0, -1, 0⟩⟩ (Or.inl rfl)

/-- C4: the ammo/reload lifecycle.  A shoot request is rejected — no state
change, no projectile — when ammo is 0 or a reload is in progress; an
accepted shot decrements ammo by exactly one (so ammo never increases
outside reload completion), spawns a bullet, and starts a reload the moment
ammo reaches 0; reload completion restores full ammo and clears the flag
exactly when the elapsed time reaches the reload duration, and leaves the
player untouched otherwise. -/
theorem ammo_reload_lifecycle (now : ℤ) (nid : ℕ) (p : Player) :
    ((p.ammo = 0 ∨ p.isReloading = true) →
      handleShoot now nid p = (p, none, nid)) ∧
    ((handleShoot now nid p).1.ammo ≤ p.ammo) ∧
    (p.isReloading = false → 0 < p.ammo →
      (handleShoot now nid p).1.ammo = p.ammo - 1 ∧
      (handleShoot now nid p).2.1 =
        some (createBullet now nid { p with ammo := p.ammo - 1 }) ∧
      (handleShoot now nid p).2.2 = nid + 1 ∧
      (p.ammo = 1 → (handleShoot now nid p).1.isReloading = true ∧
        (handleShoot now nid p).1.reloadStartTime = now) ∧
      (1 < p.ammo → (handleShoot now nid p).1.isReloading = false)) ∧
    (p.isReloading = true → p.reloadTime ≤ now - p.reloadStartTime →
      updatePlayerState now p =
        { p with isReloading := false, ammo := p.maxAmmo }) ∧
    (¬(p.isReloading = true ∧ now - p.reloadStartTime ≥ p.reloadTime) →
      updatePlayerState now p = p) := by
  refine ⟨?_, ?_, ?_, ?_, ?_⟩
  · intro h
    have hc : ¬(¬p.isReloading = true ∧ p.ammo > 0) := by
      rcases h with h | h
      · rintro ⟨-, h2⟩; omega
      · rintro ⟨h1, -⟩; exact h1 h
    simp only [handleShoot, if_neg hc]
  · unfold handleShoot
    split
    · dsimp only
      split_ifs <;> simp
    · simp
  · intro hr ha
    have hc : (¬p.isReloading = true ∧ p.ammo > 0) := ⟨by simp [hr], ha⟩
    simp only [handleShoot, if_pos hc]
    refine ⟨?_, ?_, ?_, ?_, ?_⟩
    · split <;> simp
    · simp
    · simp
    · intro h1
      rw [if_pos (by simp [h1])]
      exact ⟨rfl, rfl⟩
    · intro h1
      rw [if_neg (by simp; omega)]
      simpa using hr
  · intro hr ht
    simp only [updatePlayerState, if_pos (And.intro hr ht)]
  · intro h
    simp only [updatePlayerState, if_neg h]

/-- Witness for C4 at concrete inputs: a fresh player (30 ammo, not
reloading) has its shot accepted and ammo drops to 29; a player one
millisecond past the end of a reload started at time 0 completes it with
full ammo and a cleared flag. -/
theorem ammo_reload_lifecycle_witness :
    (handleShoot 5 0 (freshPlayer 0 0)).1.ammo = 30 - 1 ∧
    updatePlayerState 1501
        { freshPlayer 0 0 with isReloading := true, ammo := 0 } =
      { freshPlayer 0 0 with isReloading := false, ammo := 30 } := by
  constructor
  · exact ((ammo_reload_lifecycle 5 0 (freshPlayer 0 0)).2.2.1 rfl
      (by decide)).1
  · exact (ammo_reload_lifecycle 1501 0
      { freshPlayer 0 0 with isReloading := true, ammo := 0 }).2.2.2.1
      rfl (by decide)

/-- The vector (0,0,-1) rotated by a YXZ euler depends only on yaw (y) and
pitch (x): it equals (-sin y · cos x, sin x, -cos y · cos x), with the roll
(z) cancelling through sin² + cos² = 1. -/
theorem applyEuler_forward (x y z : ℝ) :
    (Vec3.mk 0 0 (-1)).applyEuler ⟨x, y, z⟩ =
      ⟨-(Real.sin y * Real.cos x), Real.sin x,
        -(Real.cos y * Real.cos x)⟩ := by
  have px := Real.sin_sq_add_cos_sq (x / 2)
  have py := Real.sin_sq_add_cos_sq (y / 2)
  have pz := Real.sin_sq_add_cos_sq (z / 2)
  have hsx : Real.sin x = 2 * Real.sin (x / 2) * Real.cos (x / 2) := by
    have h := Real.sin_two_mul (x / 2)
    rw [show 2 * (x / 2) = x by ring] at h
    exact h
  have hcx : Real.cos x = Real.cos (x / 2) ^ 2 - Real.sin (x / 2) ^ 2 := by
    have h := Real.cos_two_mul' (x / 2)
    rw [show 2 * (x / 2) = x by ring] at h
    exact h
  have hsy : Real.sin y = 2 * Real.sin (y / 2) * Real.cos (y / 2) := by
    have h := Real.sin_two_mul (y / 2)
    rw [show 2 * (y / 2) = y by ring] at h
    exact h
  have hcy : Real.cos y = Real.cos (y / 2) ^ 2 - Real.sin (y / 2) ^ 2 := by
    have h := Real.cos_two_mul' (y / 2)
    rw [show 2 * (y / 2) = y by ring] at h
    exact h
  unfold Vec3.applyEuler Quat.setFromEulerYXZ Vec3.applyQuaternion
  dsimp only
  apply Vec3.ext
  · rw [hsy, hcx]
    linear_combination (-2 * Real.cos (y / 2) * Real.sin (y / 2) *
      (Real.cos (x / 2) ^ 2 - Real.sin (x / 2) ^ 2)) * pz
  · rw [hsx]
    linear_combination (2 * Real.sin (x / 2) * Real.cos (x / 2) *
        (Real.sin (y / 2) ^ 2 + Real.cos (y / 2) ^ 2)) * pz +
      (2 * Real.sin (x / 2) * Real.cos (x / 2)) * py
  · rw [hcy, hcx]
    linear_combination (2 * (Real.sin (x / 2) ^ 2 * Real.cos (y / 2) ^ 2 +
        Real.cos (x / 2) ^ 2 * Real.sin (y / 2) ^ 2)) * pz +
      (Real.sin (y / 2) ^ 2 + Real.cos (y / 2) ^ 2) * px + py

/-- C7: the velocity of a spawned projectile is derived purely from yaw and
pitch — for any accepted orientation, changing the roll component alone
leaves the projectile's velocity (hence its direction) unchanged, while the
muzzle offsets of the start position may use the full orientation. -/
theorem bullet_direction_ignores_roll (now : ℤ) (nid : ℕ) (p : Player)
    (x y z z' : ℝ) :
    (createBullet now nid { p with rotation := ⟨x, y, z⟩ }).velocity =
      (createBullet now nid { p with rotation := ⟨x, y, z'⟩ }).velocity := by
  unfold createBullet
  dsimp only
  rw [applyEuler_forward, applyEuler_forward]

/-- The clamp stage itself never leaves the horizontal speed above
MAX_SPEED: rescaling a horizontal vector of squared magnitude S > 25 by
5/√S lands exactly on squared magnitude 25. -/
theorem clampHorizontal_bound (v : Vec3) :
    horizontalSpeedSq (clampHorizontal v) ≤ MAX_SPEED * MAX_SPEED := by
  unfold clampHorizontal
  dsimp only
  split
  · rename_i h
    have hS : (Vec3.mk v.x 0 v.z).lengthSq = v.x * v.x + v.z * v.z := by
      simp [Vec3.lengthSq]
    have hS0 : 0 < (Vec3.mk v.x 0 v.z).lengthSq := by
      have h25 : (0:ℝ) < MAX_SPEED * MAX_SPEED := by norm_num [MAX_SPEED]
      linarith
    have hlpos : 0 < (Vec3.mk v.x 0 v.z).length := Real.sqrt_pos.mpr hS0
    have hlsq : (Vec3.mk v.x 0 v.z).length * (Vec3.mk v.x 0 v.z).length =
        (Vec3.mk v.x 0 v.z).lengthSq := Real.mul_self_sqrt hS0.le
    rw [Vec3.normalize, if_neg (ne_of_gt hlpos)]
    simp only [horizontalSpeedSq, Vec3.scale, MAX_SPEED]
    have hne : (Vec3.mk v.x 0 v.z).length ≠ 0 := ne_of_gt hlpos
    have key : v.x * (1 / (Vec3.mk v.x 0 v.z).length) * 5 *
          (v.x * (1 / (Vec3.mk v.x 0 v.z).length) * 5) +
        v.z * (1 / (Vec3.mk v.x 0 v.z).length) * 5 *
          (v.z * (1 / (Vec3.mk v.x 0 v.z).length) * 5) = 25 := by
      field_simp
      rw [hlsq, hS]
      ring
    rw [key]
    norm_num
  · rename_i h
    have hS : (Vec3.mk v.x 0 v.z).lengthSq = v.x * v.x + v.z * v.z := by
      simp [Vec3.lengthSq]
    simp only [not_lt] at h
    rw [hS] at h
    simpa [horizontalSpeedSq] using h

/-- Collision response keeps the horizontal speed bound whenever the sweep
reports no hit or a floor-like contact (normal.y > 0): in those cases the
velocity is left as clamped, or zeroed by the below-world reset. -/
theorem resolveCollision_keeps_bound (result : Option CollisionResult)
    (p : Player) (v8 : Vec3) (c1 : Capsule)
    (hres : result = none ∨ ∃ r, result = some r ∧ 0 < r.normal.y)
    (hv : horizontalSpeedSq v8 ≤ MAX_SPEED * MAX_SPEED) :
    horizontalSpeedSq (resolveCollision result p v8 c1).velocity ≤
      MAX_SPEED * MAX_SPEED := by
  have hnn : (0:ℝ) ≤ MAX_SPEED * MAX_SPEED := by norm_num [MAX_SPEED]
  rcases hres with h | ⟨r, h, hy⟩ <;> subst h
  · unfold resolveCollision
    dsimp only
    split
    · simpa [horizontalSpeedSq] using hnn
    · exact hv
  · unfold resolveCollision
    dsimp only
    simp only [decide_eq_true_eq]
    rw [if_pos hy]
    split
    · simpa [horizontalSpeedSq] using hnn
    · exact hv

/-- C2, amended: after the damping/clamp stage of every substep the
horizontal speed is at most MAX_SPEED, and the bound still holds at the end
of any substep whose capsule sweep reports no hit or a floor-like contact
(normal.y > 0).  The original claim fails when the sweep reports a non-floor
contact: the sliding response runs after the clamp and can raise the
horizontal speed (see the counterexample). -/
theorem horizontal_speed_clamped (dt : ℝ)
    (sweep : Query (Option CollisionResult)) (p p2 : Player)
    (hok : sweep = Query.ok none ∨
      ∃ r, sweep = Query.ok (some r) ∧ 0 < r.normal.y)
    (hup : updatePlayer dt sweep p = some p2) :
    horizontalSpeedSq ((integrateMotion dt p).1) ≤ MAX_SPEED * MAX_SPEED ∧
    horizontalSpeedSq p2.velocity ≤ MAX_SPEED * MAX_SPEED := by
  have hm : horizontalSpeedSq ((integrateMotion dt p).1) ≤
      MAX_SPEED * MAX_SPEED := by
    unfold integrateMotion
    dsimp only
    exact clampHorizontal_bound _
  refine ⟨hm, ?_⟩
  rcases hok with h | ⟨r, h, hy⟩ <;> subst h <;>
    unfold updatePlayer at hup <;>
    dsimp only at hup <;>
    rcases Option.some.injEq .. ▸ hup with rfl
  · exact resolveCollision_keeps_bound none p _ _ (Or.inl rfl) hm
  · exact resolveCollision_keeps_bound (some r) p _ _
      (Or.inr ⟨r, rfl, hy⟩) hm

/-- Witness for C2's amended theorem: a substep of an idle fresh player with
a no-hit sweep ends within the speed bound. -/
theorem horizontal_speed_clamped_witness :
    horizontalSpeedSq ((resolveCollision none (freshPlayer 0 0)
        (integrateMotion 0 (freshPlayer 0 0)).1
        (integrateMotion 0 (freshPlayer 0 0)).2).velocity) ≤
      MAX_SPEED * MAX_SPEED :=
  (horizontal_speed_clamped 0 (Query.ok none) (freshPlayer 0 0) _
    (Or.inl rfl) rfl).2

/-- A capsule-sweep contact on a steep (non-floor) surface: unit normal
(3/5, -4/5, 0), zero penetration depth. -/
noncomputable def slideNormal : CollisionResult := ⟨⟨3/5, -4/5, 0⟩, 0⟩

/-- A fresh player already falling fast: velocity (0, -29.9, 0), which
gravity brings to (0, -30, 0) during a 1/300 s substep. -/
noncomputable def fallingPlayer : Player := { freshPlayer 0 0 with velocity := ⟨0, -299/10, 0⟩ }

/-- Evaluation of the movement stage on the falling player: no keys are
pressed, gravity applies, damping and the clamp leave the purely vertical
velocity untouched. -/
theorem integrateMotion_falling :
    integrateMotion (1/300) fallingPlayer =
      (⟨0, -30, 0⟩, Capsule.mk ⟨0, 1/4, 0⟩ ⟨0, 7/10, 0⟩ 0.35) := by
  unfold integrateMotion
  dsimp only
  norm_num [fallingPlayer, freshPlayer, InputKeys.none, spawnCapsule,
    clampHorizontal, Vec3.lengthSq, Vec3.scale, Vec3.add, Capsule.translate,
    GRAVITY, MAX_SPEED]

/-- C2, counterexample: the claim asserts the horizontal speed bound after
the substep completes including collision response, but the clamp runs
before the sweep.  A player falling at 30 m/s whose sweep reports the
non-floor contact normal (3/5, -4/5, 0) gets the sliding response
v += n·(-(n·v)) after the clamp, ending the substep with horizontal
velocity (-14.4, 0) of squared magnitude 207.36 > 25. -/
theorem speed_clamp_violated_by_sliding :
    updatePlayer (1/300) (Query.ok (some slideNormal)) fallingPlayer =
      some (resolveCollision (some slideNormal) fallingPlayer
        (integrateMotion (1/300) fallingPlayer).1
        (integrateMotion (1/300) fallingPlayer).2) ∧
    MAX_SPEED * MAX_SPEED <
      horizontalSpeedSq ((resolveCollision (some slideNormal) fallingPlayer
        (integrateMotion (1/300) fallingPlayer).1
        (integrateMotion (1/300) fallingPlayer).2).velocity) := by
  constructor
  · rfl
  · rw [integrateMotion_falling]
    unfold resolveCollision
    norm_num [slideNormal, fallingPlayer, freshPlayer, horizontalSpeedSq,
      Vec3.addScaledVector, Vec3.add, Vec3.scale, Vec3.dot,
      Capsule.translate, MAX_SPEED]

/-- C6: projectile liveness.  Every bullet still live after a substep's
`updateBullets` pass has age at most the 3000 ms lifetime and sits within
the 300-unit range — a bullet beyond either bound (or whose displacement ray
hit world geometry within the segment) was removed by that pass, so no live
projectile ever carries an age beyond the lifetime plus one tick. -/
theorem bullet_liveness (now : ℤ) (dt : ℝ) (ready : Bool)
    (octree : Ray → Query (Option RawHit)) (bullets : List Bullet)
    (b : Bullet) (hb : b ∈ updateBullets now dt ready octree bullets) :
    now - b.spawnTime ≤ 3000 ∧ b.collider.center.length ≤ 300 := by
  unfold updateBullets at hb
  rcases List.mem_filterMap.mp hb with ⟨b0, hb0, hf⟩
  dsimp only at hf
  rw [ite_eq_iff] at hf
  rcases hf with ⟨-, hf⟩ | ⟨hcond, hf⟩
  · cases hf
  · push_neg at hcond
    cases hf
    exact ⟨hcond.2.2, hcond.2.1⟩

/-- A motionless bullet freshly spawned at the origin. -/
noncomputable def testBullet : Bullet :=
  ⟨0, 0, ⟨⟨0, 0, 0⟩, 0.08⟩, ⟨0, 0, 0⟩, 0⟩

/-- Witness for C6: with no geometry and zero velocity the test bullet
survives the pass and satisfies both bounds. -/
theorem bullet_liveness_witness :
    (0:ℤ) - testBullet.spawnTime ≤ 3000 ∧
      testBullet.collider.center.length ≤ 300 := by
  refine bullet_liveness 0 0 false (fun _ => Query.ok none) [testBullet]
    testBullet ?_
  simp [updateBullets, testBullet, safeRayIntersect, bulletHitWorld,
    Vec3.addScaledVector, Vec3.add, Vec3.scale, Vec3.length, Vec3.lengthSq,
    Vec3.sub, Real.sqrt_zero]

/-- `firstHit` returns a member of the live set that the bullet actually
hits. -/
theorem firstHit_mem {b : Bullet} :
    ∀ {ps : List Player} {v : Player},
      firstHit b ps = some v → v ∈ ps ∧ hitsPlayer b v := by
  intro ps
  induction ps with
  | nil => intro v h; simp [firstHit] at h
  | cons p ps ih =>
    intro v h
    unfold firstHit at h
    split at h
    · rename_i hcond
      injection h with h
      subst h
      exact ⟨List.mem_cons_self _ _, hcond⟩
    · rcases ih h with ⟨h1, h2⟩
      exact ⟨List.mem_cons_of_mem _ h1, h2⟩

/-- The replaced-or-appended pending-respawn record is present after
`setDead`. -/
theorem setDead_mem (dead : List (ℕ × DeadRec)) (pid : ℕ) (r : DeadRec) :
    (pid, r) ∈ setDead dead pid r := by
  unfold setDead
  split
  · rename_i h
    rcases List.any_eq_true.mp h with ⟨e, he, heq⟩
    simp only [decide_eq_true_eq] at heq
    exact List.mem_map.mpr ⟨e, he, by simp [heq]⟩
  · simp

/-- C5: per-projectile hit resolution in `checkCollisions`.  When the first
player in iteration order hit by a bullet (other than its owner) is
`victim`, the bullet is destroyed (not kept); a surviving victim stays live
with exactly 20 health subtracted; a victim driven to health ≤ 0 leaves the
live set, enters the pending-respawn set with respawn time now +
RESPAWN_TIME and its kill count, and the owner — when still live — is
credited with one kill.  At most this one hit is resolved for the bullet. -/
theorem projectile_hit_resolution (now : ℤ) (b : Bullet) (ps : List Player)
    (dead : List (ℕ × DeadRec)) (kept : List Bullet) (victim : Player)
    (hfind : firstHit b ps = some victim) :
    victim ∈ ps ∧ hitsPlayer b victim ∧
    (checkCollisionsStep now b (ps, dead, kept)).2.2 = kept ∧
    (0 < victim.health - 20 →
      { victim with health := victim.health - 20 } ∈
        (checkCollisionsStep now b (ps, dead, kept)).1) ∧
    (victim.health - 20 ≤ 0 →
      victim.id ∉
        ((checkCollisionsStep now b (ps, dead, kept)).1.map Player.id) ∧
      (victim.id, (⟨now + RESPAWN_TIME, victim.kills⟩ : DeadRec)) ∈
        (checkCollisionsStep now b (ps, dead, kept)).2.1 ∧
      (∀ q ∈ ps, q.id = b.ownerId →
        { q with kills := q.kills + 1 } ∈
          (checkCollisionsStep now b (ps, dead, kept)).1)) := by
  have hmem := firstHit_mem hfind
  refine ⟨hmem.1, hmem.2, ?_, ?_, ?_⟩
  · simp [checkCollisionsStep, hfind]
  · intro hpos
    simp only [checkCollisionsStep, hfind]
    unfold applyHit
    rw [if_neg (by omega)]
    exact List.mem_map.mpr ⟨victim, hmem.1, by simp⟩
  · intro hneg
    simp only [checkCollisionsStep, hfind]
    unfold applyHit
    rw [if_pos (by omega)]
    dsimp only
    refine ⟨?_, setDead_mem dead victim.id _, ?_⟩
    · intro hcontra
      rcases List.mem_map.mp hcontra with ⟨q, hq, hqid⟩
      rcases List.mem_filter.mp hq with ⟨-, hne⟩
      simp only [decide_eq_true_eq] at hne
      exact hne hqid
    · intro q hq hqo
      have hqv : q.id ≠ victim.id := by
        rw [hqo]; exact hmem.2.1
      refine List.mem_filter.mpr ⟨?_, by simp [hqv]⟩
      refine List.mem_map.mpr ⟨{ q with health := q.health }, ?_, by
        simp [hqo]⟩
      refine List.mem_map.mpr ⟨q, hq, by simp [hqv]⟩

/-- A player at 20 health whose degenerate capsule sits at the bullet's
center. -/
noncomputable def targetPlayer : Player :=
  { freshPlayer 1 0 with
      health := 20
      collider := ⟨⟨0, 0.5, 0⟩, ⟨0, 0.5, 0⟩, 0.35⟩ }

/-- A bullet owned by player 0 whose sphere sits inside the target's
capsule. -/
noncomputable def killerBullet : Bullet :=
  ⟨0, 0, ⟨⟨0, 0.5, 0⟩, 0.08⟩, ⟨0, 0, 0⟩, 0⟩

/-- The concrete hit test: the degenerate capsule branch compares the
distance of the shared point (0) against the radius sum 0.43. -/
theorem targetPlayer_hit : hitsPlayer killerBullet targetPlayer := by
  constructor
  · norm_num [killerBullet, targetPlayer, freshPlayer]
  · unfold capsuleIntersectsSphere
    norm_num [killerBullet, targetPlayer, freshPlayer, Vec3.sub,
      Vec3.length, Vec3.lengthSq, Vec3.distanceTo, Real.sqrt_zero]

/-- Witness for C5: the lethal hit destroys the bullet and moves the victim
into the pending-respawn set with respawn time 0 + RESPAWN_TIME. -/
theorem projectile_hit_resolution_witness :
    (checkCollisionsStep 0 killerBullet ([targetPlayer], [], [])).2.2 =
      ([] : List Bullet) ∧
    (targetPlayer.id,
        (⟨0 + RESPAWN_TIME, targetPlayer.kills⟩ : DeadRec)) ∈
      (checkCollisionsStep 0 killerBullet ([targetPlayer], [], [])).2.1 := by
  have h := projectile_hit_resolution 0 killerBullet [targetPlayer] [] []
    targetPlayer
    (by unfold firstHit; rw [if_pos targetPlayer_hit])
  exact ⟨h.2.2.1, (h.2.2.2.2 (by norm_num [targetPlayer, freshPlayer])).2.1⟩

/-- A full-health player's medkit loop changes nothing: every claim requires
health strictly below max. -/
theorem playerPickups_full (p : Player) (hfull : p.maxHealth ≤ p.health) :
    ∀ (ms acc : List Medkit),
      ms.foldl (fun acc m =>
        let res := pickupStep acc.1 m
        (res.1, acc.2 ++ [res.2])) (p, acc) = (p, acc ++ ms) := by
  intro ms
  induction ms with
  | nil => intro acc; simp
  | cons m ms ih =>
    intro acc
    rw [List.foldl_cons]
    have hstep : pickupStep p m = (p, m) := by
      unfold pickupStep
      rw [if_neg]
      rintro ⟨-, -, hlt⟩
      omega
    dsimp only
    rw [hstep, ih (acc ++ [m])]
    simp

/-- With every live player at full health, `checkMedkitPickups` is the
identity on players and medkits. -/
theorem checkMedkitPickups_full :
    ∀ (ps : List Player) (acc1 : List Player) (ms : List Medkit),
      (∀ q ∈ ps, q.maxHealth ≤ q.health) →
      ps.foldl (fun acc p =>
        let res := playerPickups p acc.2
        (acc.1 ++ [res.1], res.2)) (acc1, ms) = (acc1 ++ ps, ms) := by
  intro ps
  induction ps with
  | nil => intro acc1 ms h; simp
  | cons p ps ih =>
    intro acc1 ms h
    rw [List.foldl_cons]
    have hp : playerPickups p ms = (p, ms) := by
      unfold playerPickups
      rw [playerPickups_full p (h p (List.mem_cons_self _ _)) ms []]
      simp
    dsimp only
    rw [hp, ih (acc1 ++ [p]) ms
      (fun q hq => h q (List.mem_cons_of_mem _ hq))]
    simp

/-- C9: a medkit is claimed only by a player strictly below max health.  For
a player within claim range (distance < 1 from the collider start) of an
unclaimed medkit: at full health nothing changes and the sweep leaves the
medkit in place; below full health the heal clamps to
min(maxHealth, health + MEDKIT_HEAL_AMOUNT), the medkit is flagged, and the
same tick's sweep removes it.  In general, a world of full-health players
claims nothing. -/
theorem medkit_claim_semantics (p : Player) (m : Medkit)
    (hm : m.pickedUp = false)
    (hd : p.collider.start.distanceTo m.position < 1) :
    (p.maxHealth ≤ p.health →
      checkMedkitPickups [p] [m] = ([p], [m]) ∧
      sweepMedkits [m] = [m]) ∧
    (p.health < p.maxHealth →
      checkMedkitPickups [p] [m] =
        ([{ p with health := (min p.maxHealth
            (p.health + MEDKIT_HEAL_AMOUNT)) }],
         [{ m with pickedUp := true }]) ∧
      sweepMedkits [{ m with pickedUp := true }] = []) ∧
    (∀ ps ms, (∀ q ∈ ps, q.maxHealth ≤ q.health) →
      checkMedkitPickups ps ms = (ps, ms)) := by
  refine ⟨?_, ?_, ?_⟩
  · intro hfull
    refine ⟨?_, by simp [sweepMedkits, hm]⟩
    unfold checkMedkitPickups
    rw [checkMedkitPickups_full [p] [] [m] (by simpa using hfull)]
    simp
  · intro hlt
    constructor
    · unfold checkMedkitPickups playerPickups
      simp [pickupStep, hm, hd, hlt]
    · simp [sweepMedkits]
  · intro ps ms h
    unfold checkMedkitPickups
    rw [checkMedkitPickups_full ps [] ms h]
    simp

/-- A fresh player hurt down to 50 health. -/
noncomputable def hurtPlayer : Player := { freshPlayer 0 0 with health := 50 }

/-- An unclaimed medkit placed exactly at the hurt player's collider start
point. -/
noncomputable def testMedkit : Medkit := ⟨0, ⟨0, 0.35, 0⟩, false⟩

/-- Witness for C9: the hurt player claims the co-located medkit, heals to
min(100, 50+40), and the sweep removes the medkit in the same tick. -/
theorem medkit_claim_semantics_witness :
    checkMedkitPickups [hurtPlayer] [testMedkit] =
      ([{ hurtPlayer with health := (min hurtPlayer.maxHealth
          (hurtPlayer.health + MEDKIT_HEAL_AMOUNT)) }],
       [{ testMedkit with pickedUp := true }]) ∧
    sweepMedkits [{ testMedkit with pickedUp := true }] = [] :=
  (medkit_claim_semantics hurtPlayer testMedkit rfl
    (by norm_num [hurtPlayer, testMedkit, freshPlayer, spawnCapsule,
      Vec3.distanceTo, Vec3.sub, Vec3.length, Vec3.lengthSq,
      Real.sqrt_zero])).2.1
    (by norm_num [hurtPlayer, freshPlayer])

/-- The upserted player is always present after `upsertPlayer`. -/
theorem upsertPlayer_self (ps : List Player) (p : Player) :
    p ∈ upsertPlayer ps p := by
  unfold upsertPlayer
  split
  · rename_i h
    rcases List.any_eq_true.mp h with ⟨q, hq, heq⟩
    simp only [decide_eq_true_eq] at heq
    exact List.mem_map.mpr ⟨q, hq, by simp [heq]⟩
  · simp

/-- `upsertPlayer` keeps every player whose id differs from the upserted
one. -/
theorem upsertPlayer_preserve {ps : List Player} {q : Player} (p : Player)
    (hq : q ∈ ps) (hne : q.id ≠ p.id) : q ∈ upsertPlayer ps p := by
  unfold upsertPlayer
  split
  · exact List.mem_map.mpr ⟨q, hq, by simp [hne]⟩
  · exact List.mem_append_left _ hq

/-- Members whose id never occurs among the pending keys survive the whole
respawn fold. -/
theorem respawnFold_preserve (now : ℤ) :
    ∀ (dead : List (ℕ × DeadRec)) (acc : List Player × List (ℕ × DeadRec))
      (q : Player), q ∈ acc.1 → (∀ e ∈ dead, e.1 ≠ q.id) →
      q ∈ (dead.foldl (fun acc entry =>
        if now ≥ entry.2.respawnTime then
          (upsertPlayer acc.1 (freshPlayer entry.1 entry.2.kills), acc.2)
        else (acc.1, acc.2 ++ [entry])) acc).1 := by
  intro dead
  induction dead with
  | nil => intro acc q hq _; exact hq
  | cons e t ih =>
    intro acc q hq hk
    rw [List.foldl_cons]
    have he : e.1 ≠ q.id := hk e (List.mem_cons_self _ _)
    have hk' : ∀ e' ∈ t, e'.1 ≠ q.id :=
      fun e' he' => hk e' (List.mem_cons_of_mem _ he')
    by_cases hexp : now ≥ e.2.respawnTime
    · rw [if_pos hexp]
      refine ih _ q (upsertPlayer_preserve _ hq ?_) hk'
      simpa [freshPlayer] using fun hc => he hc.symm
    · rw [if_neg hexp]
      exact ih _ q hq hk'

/-- A key that is neither among the kept records nor among the remaining
pending keys is absent from the fold's surviving record list. -/
theorem respawnFold_keys (now : ℤ) :
    ∀ (dead : List (ℕ × DeadRec)) (acc : List Player × List (ℕ × DeadRec))
      (pid : ℕ), pid ∉ acc.2.map Prod.fst → (∀ e ∈ dead, e.1 ≠ pid) →
      pid ∉ ((dead.foldl (fun acc entry =>
        if now ≥ entry.2.respawnTime then
          (upsertPlayer acc.1 (freshPlayer entry.1 entry.2.kills), acc.2)
        else (acc.1, acc.2 ++ [entry])) acc).2.map Prod.fst) := by
  intro dead
  induction dead with
  | nil => intro acc pid h _; exact h
  | cons e t ih =>
    intro acc pid h hk
    rw [List.foldl_cons]
    have he : e.1 ≠ pid := hk e (List.mem_cons_self _ _)
    have hk' : ∀ e' ∈ t, e'.1 ≠ pid :=
      fun e' he' => hk e' (List.mem_cons_of_mem _ he')
    by_cases hexp : now ≥ e.2.respawnTime
    · rw [if_pos hexp]
      exact ih _ pid h hk'
    · rw [if_neg hexp]
      refine ih _ pid ?_ hk'
      simp only [List.map_append, List.mem_append]
      rintro (hc | hc)
      · exact h hc
      · simp at hc
        exact he hc.symm

/-- The core of the respawn sweep: an expired record produces the fresh
player and disappears from the pending set. -/
theorem respawnFold_consumes (now : ℤ) :
    ∀ (dead : List (ℕ × DeadRec)) (acc : List Player × List (ℕ × DeadRec))
      (pid : ℕ) (r : DeadRec), (pid, r) ∈ dead → now ≥ r.respawnTime →
      (dead.map Prod.fst).Nodup → pid ∉ acc.2.map Prod.fst →
      freshPlayer pid r.kills ∈ ((dead.foldl (fun acc entry =>
        if now ≥ entry.2.respawnTime then
          (upsertPlayer acc.1 (freshPlayer entry.1 entry.2.kills), acc.2)
        else (acc.1, acc.2 ++ [entry])) acc).1) ∧
      pid ∉ ((dead.foldl (fun acc entry =>
        if now ≥ entry.2.respawnTime then
          (upsertPlayer acc.1 (freshPlayer entry.1 entry.2.kills), acc.2)
        else (acc.1, acc.2 ++ [entry])) acc).2.map Prod.fst) := by
  intro dead
  induction dead with
  | nil => intro acc pid r h; simp at h
  | cons e t ih =>
    intro acc pid r hmem hexp hnodup hacc
    rw [List.map_cons, List.nodup_cons] at hnodup
    rcases List.mem_cons.mp hmem with heq | htail
    · subst heq
      rw [List.foldl_cons, if_pos hexp]
      have hkeys : ∀ e' ∈ t, e'.1 ≠ pid := by
        intro e' he' hc
        exact hnodup.1 (hc ▸ List.mem_map.mpr ⟨e', he', rfl⟩)
      constructor
      · exact respawnFold_preserve now t _ _
          (upsertPlayer_self _ _) hkeys
      · exact respawnFold_keys now t _ _ hacc hkeys
    · have hpid : pid ∈ t.map Prod.fst :=
        List.mem_map.mpr ⟨(pid, r), htail, rfl⟩
      have hne : e.1 ≠ pid := fun hc => hnodup.1 (hc ▸ hpid)
      rw [List.foldl_cons]
      by_cases hexp2 : now ≥ e.2.respawnTime
      · rw [if_pos hexp2]
        exact ih _ pid r htail hexp hnodup.2 hacc
      · rw [if_neg hexp2]
        refine ih _ pid r htail hexp hnodup.2 ?_
        simp only [List.map_append, List.mem_append]
        rintro (hc | hc)
        · exact hacc hc
        · simp at hc
          exact hne hc.symm

/-- C10: every expired pending-respawn record is consumed by the respawn
sweep and re-inserts a fresh player — spawn pose, full health and ammo,
restored kill count, name reset to the id — into the live set; this happens
for any live set, in particular after the victim's connection closed
(`disconnect`, which deletes only the live entry and leaves the pending
record). -/
theorem respawn_consumes_expired (now : ℤ) (ps : List Player)
    (dead : List (ℕ × DeadRec)) (pid : ℕ) (r : DeadRec)
    (hmem : (pid, r) ∈ dead) (hexp : now ≥ r.respawnTime)
    (hnodup : (dead.map Prod.fst).Nodup) :
    freshPlayer pid r.kills ∈ (respawnPlayers now ps dead).1 ∧
    pid ∉ ((respawnPlayers now ps dead).2.map Prod.fst) ∧
    freshPlayer pid r.kills ∈
      (respawnPlayers now (ps.filter (fun p => p.id ≠ pid)) dead).1 ∧
    (freshPlayer pid r.kills).health = 100 ∧
    (freshPlayer pid r.kills).ammo = 30 ∧
    (freshPlayer pid r.kills).name = pid ∧
    (freshPlayer pid r.kills).kills = r.kills ∧
    (freshPlayer pid r.kills).collider = spawnCapsule := by
  have h1 := respawnFold_consumes now dead (ps, []) pid r hmem hexp hnodup
    (by simp)
  have h2 := respawnFold_consumes now dead
    (ps.filter (fun p => p.id ≠ pid), []) pid r hmem hexp hnodup (by simp)
  exact ⟨h1.1, h1.2, h2.1, rfl, rfl, rfl, rfl, rfl⟩

/-- Witness for C10: a lone expired record for player 7 with 3 kills is
consumed even though player 7's connection is gone (empty live set). -/
theorem respawn_consumes_expired_witness :
    freshPlayer 7 3 ∈
      (respawnPlayers 5000 [] [(7, ⟨3000, 3⟩)]).1 ∧
    7 ∉ ((respawnPlayers 5000 [] [(7, ⟨3000, 3⟩)]).2.map Prod.fst) := by
  have h := respawn_consumes_expired 5000 [] [(7, ⟨3000, 3⟩)] 7 ⟨3000, 3⟩
    (by simp) (by norm_num) (by simp)
  exact ⟨h.1, h.2.1⟩

/-- The live-set health invariant of the spec: every live player has
0 < health ≤ maxHealth. -/
def HealthInv (ps : List Player) : Prop :=
  ∀ p ∈ ps, 0 < p.health ∧ p.health ≤ p.maxHealth

/-- Reload completion touches only ammo and the reloading flag. -/
theorem updatePlayerState_fields (now : ℤ) (p : Player) :
    (updatePlayerState now p).health = p.health ∧
    (updatePlayerState now p).maxHealth = p.maxHealth ∧
    (updatePlayerState now p).id = p.id := by
  unfold updatePlayerState
  split <;> exact ⟨rfl, rfl, rfl⟩

/-- Collision response touches only the collider, velocity and grounded
flag. -/
theorem resolveCollision_fields (res : Option CollisionResult) (p : Player)
    (v : Vec3) (c : Capsule) :
    (resolveCollision res p v c).health = p.health ∧
    (resolveCollision res p v c).maxHealth = p.maxHealth ∧
    (resolveCollision res p v c).id = p.id := by
  unfold resolveCollision
  dsimp only
  split <;> exact ⟨rfl, rfl, rfl⟩

/-- A completed physics substep leaves identity and health untouched. -/
theorem updatePlayer_some_fields {dt : ℝ}
    {sw : Query (Option CollisionResult)} {p p2 : Player}
    (h : updatePlayer dt sw p = some p2) :
    p2.health = p.health ∧ p2.maxHealth = p.maxHealth ∧ p2.id = p.id := by
  unfold updatePlayer at h
  cases sw with
  | fault => cases h
  | ok res =>
    dsimp only at h
    injection h with h
    subst h
    exact resolveCollision_fields res p _ _

/-- The per-substep update of the whole live set preserves the id sequence
and the health invariant. -/
theorem updateAllPlayers_sound (dt : ℝ)
    (sw : Player → Query (Option CollisionResult)) :
    ∀ (ps ps2 : List Player), updateAllPlayers dt sw ps = some ps2 →
      ps2.map Player.id = ps.map Player.id ∧
      (HealthInv ps → HealthInv ps2) := by
  intro ps
  induction ps with
  | nil =>
    intro ps2 h
    unfold updateAllPlayers at h
    injection h with h
    subst h
    exact ⟨rfl, fun _ => by intro q hq; cases hq⟩
  | cons p ps ih =>
    intro ps2 h
    unfold updateAllPlayers at h
    cases hup : updatePlayer dt (sw p) p with
    | none =>
      rw [hup] at h
      cases hrest : updateAllPlayers dt sw ps <;> rw [hrest] at h <;>
        cases h
    | some p2 =>
      rw [hup] at h
      cases hrest : updateAllPlayers dt sw ps with
      | none => rw [hrest] at h; cases h
      | some qs =>
        rw [hrest] at h
        injection h with h
        subst h
        rcases ih qs hrest with ⟨hid, hinv⟩
        have hf := updatePlayer_some_fields hup
        refine ⟨by simp [hid, hf.2.2], ?_⟩
        intro hi q hq
        rcases List.mem_cons.mp hq with rfl | hq2
        · have hp := hi p (List.mem_cons_self _ _)
          rw [hf.1, hf.2.1]
          exact hp
        · exact hinv (fun a ha => hi a (List.mem_cons_of_mem _ ha)) q hq2

/-- In a live set with unique ids, membership plus id equality pins the
entry. -/
theorem nodup_id_unique :
    ∀ {ps : List Player}, (ps.map Player.id).Nodup →
      ∀ {q v : Player}, q ∈ ps → v ∈ ps → q.id = v.id → q = v := by
  intro ps
  induction ps with
  | nil => intro _ q v hq; intro hv _; cases hq
  | cons a t ih =>
    intro hnd q v hq hv hid
    rw [List.map_cons, List.nodup_cons] at hnd
    rcases List.mem_cons.mp hq with rfl | hq2 <;>
      rcases List.mem_cons.mp hv with rfl | hv2
    · rfl
    · exact absurd (hid ▸ List.mem_map.mpr ⟨v, hv2, rfl⟩) hnd.1
    · exact absurd (hid ▸ List.mem_map.mpr ⟨q, hq2, rfl⟩) hnd.1
    · exact ih hnd.2 hq2 hv2 hid

/-- Damage application in `checkCollisions` preserves the health invariant
and id uniqueness of the live set: either the victim survives with 20 less
health (still positive, still at most max), or it is removed in the same
step. -/
theorem applyHit_sound (now : ℤ) (b : Bullet) (victim : Player)
    (ps : List Player) (dead : List (ℕ × DeadRec))
    (hnd : (ps.map Player.id).Nodup) (hv : victim ∈ ps)
    (hinv : HealthInv ps) :
    HealthInv (applyHit now b victim ps dead).1 ∧
    ((applyHit now b victim ps dead).1.map Player.id).Nodup := by
  unfold applyHit
  have hids1 : ∀ (f : Player → Player),
      (∀ q : Player, (f q).id = q.id) →
      ∀ (l : List Player), (l.map f).map Player.id = l.map Player.id := by
    intro f hf l
    rw [List.map_map]
    exact List.map_congr_left (fun q _ => hf q)
  split
  · rename_i hdead
    dsimp only
    constructor
    · intro q' hq'
      rcases List.mem_filter.mp hq' with ⟨hq'm, hq'ne⟩
      simp only [decide_eq_true_eq] at hq'ne
      rcases List.mem_map.mp hq'm with ⟨q1, hq1, rfl⟩
      rcases List.mem_map.mp hq1 with ⟨q, hq, rfl⟩
      have hid1 : ∀ x : Player,
          ((if x.id = b.ownerId then { x with kills := x.kills + 1 }
            else x) : Player).id = x.id := fun x => by split <;> rfl
      have hid2 : ∀ x : Player,
          ((if x.id = victim.id then { x with health := x.health - 20 }
            else x) : Player).id = x.id := fun x => by split <;> rfl
      by_cases hqe : q.id = victim.id
      · exfalso
        apply hq'ne
        rw [hid1, hid2]
        exact hqe
      · rcases hinv q hq with ⟨h1, h2⟩
        rw [if_neg hqe]
        split <;> exact ⟨h1, h2⟩
    · apply List.Nodup.sublist
        (List.Sublist.map Player.id (List.filter_sublist _))
      rw [hids1 _ (fun q => by split <;> rfl) _,
        hids1 _ (fun q => by split <;> rfl) _]
      exact hnd
  · rename_i hlive
    push_neg at hlive
    dsimp only
    constructor
    · intro q' hq'
      rcases List.mem_map.mp hq' with ⟨q, hq, rfl⟩
      by_cases hqe : q.id = victim.id
      · have : q = victim := nodup_id_unique hnd hq hv hqe
        subst this
        rw [if_pos hqe]
        rcases hinv q hq with ⟨-, h2⟩
        constructor <;> dsimp only <;> omega
      · rw [if_neg hqe]
        exact hinv q hq
    · rw [hids1 _ (fun q => by split <;> rfl) _]
      exact hnd

/-- One bullet step of `checkCollisions` preserves the live-set invariant
and id uniqueness. -/
theorem checkCollisionsStep_sound (now : ℤ) (b : Bullet)
    (acc : List Player × List (ℕ × DeadRec) × List Bullet)
    (hinv : HealthInv acc.1) (hnd : (acc.1.map Player.id).Nodup) :
    HealthInv (checkCollisionsStep now b acc).1 ∧
    ((checkCollisionsStep now b acc).1.map Player.id).Nodup := by
  unfold checkCollisionsStep
  cases hfind : firstHit b acc.1 with
  | none => exact ⟨hinv, hnd⟩
  | some victim =>
    dsimp only
    exact applyHit_sound now b victim acc.1 acc.2.1 hnd
      (firstHit_mem hfind).1 hinv

/-- `checkCollisions` preserves the live-set invariant and id
uniqueness. -/
theorem checkCollisions_sound (now : ℤ) (bullets : List Bullet) :
    ∀ (ps : List Player) (dead : List (ℕ × DeadRec)),
      HealthInv ps → (ps.map Player.id).Nodup →
      HealthInv (checkCollisions now ps dead bullets).1 ∧
      ((checkCollisions now ps dead bullets).1.map Player.id).Nodup := by
  intro ps dead hinv hnd
  unfold checkCollisions
  induction bullets with
  | nil => exact ⟨hinv, hnd⟩
  | cons b bs ih =>
    rw [List.foldr_cons]
    exact checkCollisionsStep_sound now b _ ih.1 ih.2

/-- Every member of an upserted live set is an old member or the upserted
player. -/
theorem upsertPlayer_mem_or {ps : List Player} {q p : Player}
    (h : q ∈ upsertPlayer ps p) : q ∈ ps ∨ q = p := by
  unfold upsertPlayer at h
  split at h
  · rcases List.mem_map.mp h with ⟨a, ha, hq⟩
    by_cases he : a.id = p.id
    · rw [if_pos he] at hq; exact Or.inr hq.symm
    · rw [if_neg he] at hq; exact Or.inl (hq ▸ ha)
  · rcases List.mem_append.mp h with h1 | h1
    · exact Or.inl h1
    · exact Or.inr (by simpa using h1)

/-- `upsertPlayer` keeps the id sequence duplicate-free. -/
theorem upsertPlayer_nodup {ps : List Player} (p : Player)
    (hnd : (ps.map Player.id).Nodup) :
    ((upsertPlayer ps p).map Player.id).Nodup := by
  unfold upsertPlayer
  split
  · have : ((ps.map fun q => if q.id = p.id then p else q).map Player.id) =
        ps.map Player.id := by
      rw [List.map_map]
      refine List.map_congr_left (fun q _ => ?_)
      by_cases he : q.id = p.id
      · simp [he]
      · simp [he]
    rw [this]
    exact hnd
  · rename_i h
    have hnotin : p.id ∉ ps.map Player.id := by
      intro hc
      rcases List.mem_map.mp hc with ⟨a, ha, hae⟩
      exact h (List.any_eq_true.mpr ⟨a, ha, by simp [hae]⟩)
    simp only [List.map_append, List.map_cons, List.map_nil]
    exact List.Nodup.append hnd (List.nodup_singleton _)
      (by simpa [List.disjoint_singleton] using hnotin)

/-- The respawn fold preserves the health invariant and id uniqueness:
every player it inserts is fresh at full health. -/
theorem respawnFold_sound (now : ℤ) :
    ∀ (dead : List (ℕ × DeadRec)) (acc : List Player × List (ℕ × DeadRec)),
      HealthInv acc.1 → (acc.1.map Player.id).Nodup →
      HealthInv ((dead.foldl (fun acc entry =>
        if now ≥ entry.2.respawnTime then
          (upsertPlayer acc.1 (freshPlayer entry.1 entry.2.kills), acc.2)
        else (acc.1, acc.2 ++ [entry])) acc).1) ∧
      (((dead.foldl (fun acc entry =>
        if now ≥ entry.2.respawnTime then
          (upsertPlayer acc.1 (freshPlayer entry.1 entry.2.kills), acc.2)
        else (acc.1, acc.2 ++ [entry])) acc).1).map Player.id).Nodup := by
  intro dead
  induction dead with
  | nil => intro acc h1 h2; exact ⟨h1, h2⟩
  | cons e t ih =>
    intro acc h1 h2
    rw [List.foldl_cons]
    by_cases hexp : now ≥ e.2.respawnTime
    · rw [if_pos hexp]
      refine ih _ ?_ ?_
      · intro q hq
        rcases upsertPlayer_mem_or hq with hold | hnew
        · exact h1 q hold
        · subst hnew
          exact ⟨by norm_num [freshPlayer], by norm_num [freshPlayer]⟩
      · exact upsertPlayer_nodup _ h2
    · rw [if_neg hexp]
      exact ih _ h1 h2

/-- The per-player medkit loop never changes a player's identity or max
health. -/
theorem pickupFold_id :
    ∀ (ms : List Medkit) (p : Player) (acc : List Medkit),
      (ms.foldl (fun acc m =>
        let res := pickupStep acc.1 m
        (res.1, acc.2 ++ [res.2])) (p, acc)).1.id = p.id ∧
      (ms.foldl (fun acc m =>
        let res := pickupStep acc.1 m
        (res.1, acc.2 ++ [res.2])) (p, acc)).1.maxHealth = p.maxHealth := by
  intro ms
  induction ms with
  | nil => intro p acc; exact ⟨rfl, rfl⟩
  | cons m ms ih =>
    intro p acc
    rw [List.foldl_cons]
    dsimp only
    unfold pickupStep
    split
    · exact ih _ _
    · exact ih _ _

/-- The per-player medkit loop keeps health within (0, maxHealth]. -/
theorem pickupFold_sound :
    ∀ (ms : List Medkit) (p : Player) (acc : List Medkit),
      0 < p.health → p.health ≤ p.maxHealth →
      0 < (ms.foldl (fun acc m =>
            let res := pickupStep acc.1 m
            (res.1, acc.2 ++ [res.2])) (p, acc)).1.health ∧
      (ms.foldl (fun acc m =>
        let res := pickupStep acc.1 m
        (res.1, acc.2 ++ [res.2])) (p, acc)).1.health ≤
        (ms.foldl (fun acc m =>
          let res := pickupStep acc.1 m
          (res.1, acc.2 ++ [res.2])) (p, acc)).1.maxHealth ∧
      (ms.foldl (fun acc m =>
        let res := pickupStep acc.1 m
        (res.1, acc.2 ++ [res.2])) (p, acc)).1.id = p.id := by
  intro ms
  induction ms with
  | nil => intro p acc h1 h2; exact ⟨h1, h2, rfl⟩
  | cons m ms ih =>
    intro p acc h1 h2
    rw [List.foldl_cons]
    dsimp only
    unfold pickupStep
    split
    · dsimp only
      have hmax : (0:ℤ) < p.maxHealth := by omega
      have hheal : MEDKIT_HEAL_AMOUNT = 40 := rfl
      exact ih _ _ (lt_min hmax (by omega)) (min_le_left _ _)
    · exact ih _ _ h1 h2

/-- The pickup scan preserves the health invariant and the id sequence of
the live set. -/
theorem medkitFold_sound :
    ∀ (ps acc1 : List Player) (ms : List Medkit),
      (HealthInv ps → HealthInv acc1 →
        HealthInv ((ps.foldl (fun acc p =>
          let res := playerPickups p acc.2
          (acc.1 ++ [res.1], res.2)) (acc1, ms)).1)) ∧
      ((ps.foldl (fun acc p =>
        let res := playerPickups p acc.2
        (acc.1 ++ [res.1], res.2)) (acc1, ms)).1).map Player.id =
        acc1.map Player.id ++ ps.map Player.id := by
  intro ps
  induction ps with
  | nil => intro acc1 ms; exact ⟨fun _ h => h, by simp⟩
  | cons p ps ih =>
    intro acc1 ms
    rw [List.foldl_cons]
    dsimp only
    constructor
    · intro hps hacc
      have hp := hps p (List.mem_cons_self _ _)
      have hgood := pickupFold_sound ms p [] hp.1 hp.2
      refine (ih _ _).1 (fun q hq => hps q (List.mem_cons_of_mem _ hq)) ?_
      intro q hq
      rcases List.mem_append.mp hq with hq1 | hq1
      · exact hacc q hq1
      · have : q = (playerPickups p ms).1 := by simpa using hq1
        subst this
        exact ⟨hgood.1, hgood.2.1⟩
    · rw [(ih _ _).2]
      have hid : (playerPickups p ms).1.id = p.id := (pickupFold_id ms p []).1
      simp [hid, List.map_append]

/-- One physics substep preserves the live-set invariant and id
uniqueness. -/
theorem substep_sound (env : TickEnv) (now : ℤ) (dt : ℝ) (i : ℕ)
    (st st2 : GameState) (h : substep env now dt i st = some st2)
    (hinv : HealthInv st.players)
    (hnd : (st.players.map Player.id).Nodup) :
    HealthInv st2.players ∧ (st2.players.map Player.id).Nodup := by
  unfold substep at h
  cases hup : updateAllPlayers dt (env.sweep i) st.players with
  | none => rw [hup] at h; cases h
  | some ps =>
    rw [hup] at h
    injection h with h
    subst h
    dsimp only
    rcases updateAllPlayers_sound dt (env.sweep i) st.players ps hup with
      ⟨hid, hkeep⟩
    exact checkCollisions_sound now _ ps st.deadPlayers (hkeep hinv)
      (hid ▸ hnd)

/-- A predicate preserved by every step of an `Option`-valued fold is
carried from the initial to the final state. -/
theorem foldlM_preserve {σ : Type} (P : σ → Prop) (f : σ → ℕ → Option σ)
    (hf : ∀ s i s', P s → f s i = some s' → P s') :
    ∀ (l : List ℕ) (s s' : σ), P s → l.foldlM f s = some s' → P s' := by
  intro l
  induction l with
  | nil =>
    intro s s' hs h
    rw [List.foldlM_nil] at h
    injection h with h
    subst h
    exact hs
  | cons i t ih =>
    intro s s' hs h
    rw [List.foldlM_cons] at h
    cases hfi : f s i with
    | none => rw [hfi] at h; cases h
    | some s1 =>
      rw [hfi] at h
      exact ih s1 s' (hf s i s1 hs hfi) h

/-- The pickup scan preserves the live-set invariant and id sequence. -/
theorem checkMedkitPickups_sound (ps : List Player) (ms : List Medkit)
    (hinv : HealthInv ps) :
    HealthInv (checkMedkitPickups ps ms).1 ∧
    (checkMedkitPickups ps ms).1.map Player.id = ps.map Player.id := by
  unfold checkMedkitPickups
  refine ⟨(medkitFold_sound ps [] ms).1 hinv (fun q hq => by cases hq), ?_⟩
  rw [(medkitFold_sound ps [] ms).2]
  simp

/-- C3: the live-set health invariant 0 < health ≤ maxHealth holds at every
tick boundary.  A completed tick maps a live set satisfying the invariant
(with unique ids, as the JS object guarantees) to one satisfying it: damage
that drives health to ≤ 0 removes the player inside the same
`checkCollisions` step, medkit healing clamps to maxHealth, and respawns
insert full-health players.  A new connection likewise preserves it. -/
theorem health_invariant_at_tick_boundary (env : TickEnv) (now : ℤ)
    (st st2 : GameState) (hinv : HealthInv st.players)
    (hnd : (st.players.map Player.id).Nodup)
    (ht : tick env now st = some st2) :
    HealthInv st2.players ∧ (st2.players.map Player.id).Nodup ∧
    (∀ pid, HealthInv (connectPlayer pid st).players) := by
  have hconnect : ∀ pid, HealthInv (connectPlayer pid st).players := by
    intro pid q hq
    rcases upsertPlayer_mem_or hq with hold | hnew
    · exact hinv q hold
    · subst hnew
      exact ⟨by norm_num [freshPlayer], by norm_num [freshPlayer]⟩
  have hmain : HealthInv st2.players ∧
      (st2.players.map Player.id).Nodup := by
    unfold tick at ht
    dsimp only at ht
    have hids0 : ((st.players.map (updatePlayerState now)).map Player.id) =
        st.players.map Player.id := by
      rw [List.map_map]
      exact List.map_congr_left
        (fun q _ => (updatePlayerState_fields now q).2.2)
    have hinv0 : HealthInv (st.players.map (updatePlayerState now)) := by
      intro q hq
      rcases List.mem_map.mp hq with ⟨a, ha, rfl⟩
      rw [(updatePlayerState_fields now a).1,
        (updatePlayerState_fields now a).2.1]
      exact hinv a ha
    cases hfold : (List.range PHYSICS_SUBSTEPS).foldlM
        (fun s i => substep env now (TICK_TIME / 1000 /
          (PHYSICS_SUBSTEPS : ℝ)) i s)
        { st with players := st.players.map (updatePlayerState now) } with
    | none => rw [hfold] at ht; cases ht
    | some st1 =>
      rw [hfold] at ht
      have h1 : HealthInv st1.players ∧
          (st1.players.map Player.id).Nodup := by
        refine foldlM_preserve
          (fun s => HealthInv s.players ∧ (s.players.map Player.id).Nodup)
          _ ?_ _ _ st1 ⟨hinv0, hids0 ▸ hnd⟩ hfold
        intro s i s' hs h
        exact substep_sound env now _ i s s' h hs.1 hs.2
      have h2 : HealthInv (respawnPlayers now st1.players
            st1.deadPlayers).1 ∧
          (((respawnPlayers now st1.players st1.deadPlayers).1).map
            Player.id).Nodup :=
        respawnFold_sound now st1.deadPlayers (st1.players, []) h1.1 h1.2
      dsimp only at ht
      injection ht with ht
      subst ht
      dsimp only
      split <;> refine ⟨?_, ?_⟩ <;> dsimp only
      · exact (checkMedkitPickups_sound _ _ h2.1).1
      · rw [(checkMedkitPickups_sound _ _ h2.1).2]; exact h2.2
      · exact (checkMedkitPickups_sound _ _ h2.1).1
      · rw [(checkMedkitPickups_sound _ _ h2.1).2]; exact h2.2
  exact ⟨hmain.1, hmain.2, hconnect⟩

/-- A game state with no players, bullets, medkits or pending respawns. -/
def emptyState : GameState := ⟨[], [], [], [], 0, 0⟩

/-- Witness for C3: a tick of the empty state completes and trivially keeps
the invariant; connecting a fresh player establishes it. -/
theorem health_invariant_at_tick_boundary_witness :
    HealthInv emptyState.players ∧
    (emptyState.players.map Player.id).Nodup ∧
    (∀ pid, HealthInv (connectPlayer pid emptyState).players) :=
  health_invariant_at_tick_boundary faultSweepEnv 0 emptyState emptyState
    (by intro p hp; cases hp) (by simp [emptyState]) rfl

/-- With an octree that never reports a hit, the facade reports none for
every ray. -/
theorem safeRay_none (ready : Bool) (octree : Ray → Query (Option RawHit))
    (h : ∀ r, octree r = Query.ok none) (ray : Ray) :
    safeRayIntersect ready octree ray = none := by
  unfold safeRayIntersect
  rw [h ray]
  split <;> rfl

/-- The primary loop consumes exactly two random draws per try. -/
theorem rgpMainLoop_bound (rand : ℕ → ℝ) (ready : Bool)
    (octree : Ray → Query (Option RawHit)) (ps : List Player) :
    ∀ (fuel k : ℕ),
      (rgpMainLoop rand ready octree ps fuel k).2 ≤ k + 2 * fuel := by
  intro fuel
  induction fuel with
  | zero => intro k; simp [rgpMainLoop]
  | succ n ih =>
    intro k
    unfold rgpMainLoop
    dsimp only
    split
    · omega
    · have := ih (k + 2)
      omega

/-- The relaxed fallback loop consumes exactly two random draws per try. -/
theorem rgpRelaxedLoop_bound (rand : ℕ → ℝ) (ready : Bool)
    (octree : Ray → Query (Option RawHit)) :
    ∀ (fuel k : ℕ),
      (rgpRelaxedLoop rand ready octree fuel k).2 ≤ k + 2 * fuel := by
  intro fuel
  induction fuel with
  | zero => intro k; simp [rgpRelaxedLoop]
  | succ n ih =>
    intro k
    unfold rgpRelaxedLoop
    dsimp only
    split
    · have := ih (k + 2)
      omega
    · omega

/-- The ring fallback loop consumes exactly two random draws per try. -/
theorem rgpRingLoop_bound (rand : ℕ → ℝ) (ready : Bool)
    (octree : Ray → Query (Option RawHit)) (p : Player) :
    ∀ (fuel k : ℕ),
      (rgpRingLoop rand ready octree p fuel k).2 ≤ k + 2 * fuel := by
  intro fuel
  induction fuel with
  | zero => intro k; simp [rgpRingLoop]
  | succ n ih =>
    intro k
    unfold rgpRingLoop
    dsimp only
    split
    · have := ih (k + 2)
      omega
    · omega

/-- With no geometry, every strict candidate is rejected at the ground
probe. -/
theorem rgpCandidate_none (ready : Bool)
    (octree : Ray → Query (Option RawHit)) (ps : List Player) (x z : ℝ)
    (h : ∀ r, octree r = Query.ok none) :
    rgpCandidate ready octree ps x z = none := by
  unfold rgpCandidate groundProbe
  rw [safeRay_none ready octree h]

/-- With no geometry, the primary loop exhausts its budget. -/
theorem rgpMainLoop_none (rand : ℕ → ℝ) (ready : Bool)
    (octree : Ray → Query (Option RawHit)) (ps : List Player)
    (h : ∀ r, octree r = Query.ok none) :
    ∀ (fuel k : ℕ),
      rgpMainLoop rand ready octree ps fuel k = (none, k + 2 * fuel) := by
  intro fuel
  induction fuel with
  | zero => intro k; simp [rgpMainLoop]
  | succ n ih =>
    intro k
    unfold rgpMainLoop
    dsimp only
    rw [rgpCandidate_none ready octree ps _ _ h]
    dsimp only
    rw [ih (k + 2)]
    exact congrArg (Prod.mk none) (by omega)

/-- With no geometry, the relaxed loop exhausts its budget. -/
theorem rgpRelaxedLoop_none (rand : ℕ → ℝ) (ready : Bool)
    (octree : Ray → Query (Option RawHit))
    (h : ∀ r, octree r = Query.ok none) :
    ∀ (fuel k : ℕ),
      rgpRelaxedLoop rand ready octree fuel k = (none, k + 2 * fuel) := by
  intro fuel
  induction fuel with
  | zero => intro k; simp [rgpRelaxedLoop]
  | succ n ih =>
    intro k
    unfold rgpRelaxedLoop groundProbe
    dsimp only
    rw [safeRay_none ready octree h]
    dsimp only
    rw [ih (k + 2)]
    exact congrArg (Prod.mk none) (by omega)

/-- With no geometry, the ring loop exhausts its budget. -/
theorem rgpRingLoop_none (rand : ℕ → ℝ) (ready : Bool)
    (octree : Ray → Query (Option RawHit)) (p : Player)
    (h : ∀ r, octree r = Query.ok none) :
    ∀ (fuel k : ℕ),
      rgpRingLoop rand ready octree p fuel k = (none, k + 2 * fuel) := by
  intro fuel
  induction fuel with
  | zero => intro k; simp [rgpRingLoop]
  | succ n ih =>
    intro k
    unfold rgpRingLoop groundProbe
    dsimp only
    rw [safeRay_none ready octree h]
    dsimp only
    rw [ih (k + 2)]
    exact congrArg (Prod.mk none) (by omega)

/-- C8: the layered placement search always yields a position after a
bounded amount of internal work: it never consumes more than 187 random
draws (60 strict tries, 20 relaxed tries, the player pick, 12 ring tries
and the final sample, two draws per try); an unready octree short-circuits
to a bounded random position at pickup height; and a world with no valid
geometry falls through every layer to a position at pickup height
MEDKIT_RADIUS + 0.02 (coordinates are real numbers, hence finite by
construction of the model). -/
theorem placement_total_and_bounded (rand : ℕ → ℝ) (ready : Bool)
    (octree : Ray → Query (Option RawHit)) (ps : List Player) :
    (randomGroundPosition rand ready octree ps).2 ≤ 187 ∧
    (ready = false →
      randomGroundPosition rand ready octree ps =
        (⟨(rand 0 - 0.5) * 2 * MEDKIT_SPAWN_BOUNDS, MEDKIT_RADIUS + 0.02,
          (rand 1 - 0.5) * 2 * MEDKIT_SPAWN_BOUNDS⟩, 2)) ∧
    ((∀ r, octree r = Query.ok none) →
      (randomGroundPosition rand ready octree ps).1.y =
        MEDKIT_RADIUS + 0.02) := by
  have hTries : MEDKIT_TRIES = 60 := rfl
  refine ⟨?_, ?_, ?_⟩
  · unfold randomGroundPosition
    split
    · norm_num
    · have hb1 := rgpMainLoop_bound rand ready octree ps MEDKIT_TRIES 0
      rcases hm : rgpMainLoop rand ready octree ps MEDKIT_TRIES 0 with
        ⟨o1, k1⟩
      rw [hm] at hb1
      cases o1 with
      | some pos => dsimp only; omega
      | none =>
        dsimp only
        have hb2 := rgpRelaxedLoop_bound rand ready octree 20 k1
        rcases hr : rgpRelaxedLoop rand ready octree 20 k1 with ⟨o2, k2⟩
        rw [hr] at hb2
        cases o2 with
        | some pos => dsimp only; omega
        | none =>
          dsimp only
          cases ps with
          | nil => dsimp only; omega
          | cons q qs =>
            dsimp only
            have hb3 := rgpRingLoop_bound rand ready octree
              ((q :: qs).getD (⌊rand k2 * (q :: qs).length⌋.toNat) q)
              12 (k2 + 1)
            rcases hg : rgpRingLoop rand ready octree
                ((q :: qs).getD (⌊rand k2 * (q :: qs).length⌋.toNat) q)
                12 (k2 + 1) with ⟨o3, k3⟩
            rw [hg] at hb3
            cases o3 with
            | some pos => dsimp only; omega
            | none => dsimp only; omega
  · intro h
    unfold randomGroundPosition
    rw [if_pos h]
  · intro h
    unfold randomGroundPosition
    split
    · rfl
    · rw [rgpMainLoop_none rand ready octree ps h MEDKIT_TRIES 0]
      dsimp only
      rw [rgpRelaxedLoop_none rand ready octree h 20 (0 + 2 * MEDKIT_TRIES)]
      dsimp only
      cases ps with
      | nil => rfl
      | cons q qs =>
        dsimp only
        rw [rgpRingLoop_none rand ready octree _ h 12
          (0 + 2 * MEDKIT_TRIES + 2 * 20 + 1)]

/-- Witness for C8: with an unready octree and a constant random stream the
search returns the bounded fallback sample after two draws. -/
theorem placement_total_and_bounded_witness :
    randomGroundPosition (fun _ => 0) false (fun _ => Query.ok none) [] =
      (⟨((fun _ => (0:ℝ)) 0 - 0.5) * 2 * MEDKIT_SPAWN_BOUNDS,
        MEDKIT_RADIUS + 0.02,
        ((fun _ => (0:ℝ)) 1 - 0.5) * 2 * MEDKIT_SPAWN_BOUNDS⟩, 2) :=
  (placement_total_and_bounded (fun _ => 0) false
    (fun _ => Query.ok none) []).2.1 rfl

end Shattershot
